import Mathlib

/-!
# CommonCrypto RSA facade: `lib/CommonRSACryptor.c`

A shallow embedding of the RSA key-management facade of CommonCrypto.

* Pointers become `Option`: `none` is `NULL`, `some x` a valid pointer whose
  target currently holds `x`.  A byte buffer is a `List Nat` (one entry per
  byte, read modulo 256); a length argument stays a separate `Nat`, as in C.
* An output parameter is returned in the result record of the operation,
  holding the value the caller observes after the call.
* The arithmetic engine (corecrypto's `ccrsa_*` routines), the digest registry
  and the random generator are external collaborators: they are the fields of
  `Engine`, and every operation is parameterised by an engine.
* Every result record carries `calls`, the engine routines invoked, in order.
* `malloc` is modelled by the block it returns: `none` when the allocation
  fails, `some c` when it succeeds on memory that currently holds `c`.
* An uninitialised local array is modelled by a parameter holding its content
  on entry (`buf0`, `stack`).
-/

namespace CommonRSACryptor

/-! ## Status codes and enumerations -/

/-- Modelled from the spec: the `CCCryptorStatus` codes of the header
`CommonCryptoError.h`, which is not part of the source tree.  These are the
codes `CommonRSACryptor.c` returns (spec section 7). -/
inductive CCCryptorStatus where
  | kCCSuccess
  | kCCParamError
  | kCCBufferTooSmall
  | kCCMemoryFailure
  | kCCDecodeError
  | kCCRNGFailure
  deriving DecidableEq

/-- Modelled from the spec: the `CCRSAKeyType` tag of `CommonRSACryptor.h`
(header not in the source tree).  `other raw` stands for any further value of
the underlying C integer, such as the tag of a freshly allocated block. -/
inductive CCRSAKeyType where
  | ccRSAKeyPublic
  | ccRSAKeyPrivate
  | ccRSABadKey
  | other (raw : Nat)
  deriving DecidableEq

/-- Modelled from the spec: the `CCAsymmetricPadding` selector of
`CommonRSACryptor.h` (header not in the source tree).  The three named values
are the ones the source dispatches on; `other raw` is any other value. -/
inductive CCAsymmetricPadding where
  | ccPKCS1Padding
  | ccOAEPPadding
  | ccRSAPSSPadding
  | other (raw : Nat)
  deriving DecidableEq

/-- Modelled from the spec: the `CCDigestAlgorithm` selector of
`CommonDigestSPI.h` (header not in the source tree).  The five named values
are the allow-list of the source; `other raw` is any other value. -/
inductive CCDigestAlgorithm where
  | kCCDigestSHA1
  | kCCDigestSHA224
  | kCCDigestSHA256
  | kCCDigestSHA384
  | kCCDigestSHA512
  | other (raw : Nat)
  deriving DecidableEq

open CCCryptorStatus CCRSAKeyType CCAsymmetricPadding CCDigestAlgorithm

/-! ## Multi-precision helpers (`ccn_*`) -/

/-- The range of `size_t`: arithmetic on lengths wraps at this modulus. -/
def SIZE_T_RANGE : Nat := 2 ^ 64

/-- Modelled from the spec: `ccn_nof(bits)`, the number of 64-bit units that
hold `bits` bits (macro of corecrypto's `ccn.h`, not in the source tree). -/
def ccn_nof (bits : Nat) : Nat := ((bits + 63) % SIZE_T_RANGE) / 64

/-- Modelled from the spec: `ccn_nof_size(size)`, the number of 64-bit units
that hold `size` bytes (macro of corecrypto's `ccn.h`). -/
def ccn_nof_size (size : Nat) : Nat := ((size + 7) % SIZE_T_RANGE) / 8

/-- Modelled from the spec: `ccn_bitsof_size(size)`, the number of bits in
`size` bytes (macro of corecrypto's `ccn.h`). -/
def ccn_bitsof_size (size : Nat) : Nat := (size * 8) % SIZE_T_RANGE

/-- Modelled from the spec: `ccn_sizeof_n(n)`, the number of bytes in `n`
units (macro of corecrypto's `ccn.h`). -/
def ccn_sizeof_n (n : Nat) : Nat := 8 * n

/-- The value an array of `n` units holds when the memory it starts at holds
`x`: only the low `64 * n` bits are part of the number. -/
def ccn_value (n : Nat) (x : Nat) : Nat := x % 2 ^ (64 * n)

/-- The highest set bit of `x` among its low `i` bits, counted from 1 (0 when
none of them is set). -/
def ccn_bitlen_scan : Nat → Nat → Nat
  | 0, _ => 0
  | i + 1, x => if x.testBit i then i + 1 else ccn_bitlen_scan i x

/-- Modelled from the spec: `ccn_bitlen(n, x)`, the bit length of the
`n`-unit number `x` ("actual modulus bit length"), found by scanning its
`64 * n` bits from the top; corecrypto routine, not in the source tree. -/
def ccn_bitlen (n : Nat) (x : Nat) : Nat := ccn_bitlen_scan (64 * n) x

/-- Value of a big-endian unsigned byte string (no length prefix, no sign
bit); every entry is read as a byte. -/
def be_value (data : List Nat) : Nat :=
  data.foldl (fun acc b => acc * 256 + b % 256) 0

/-- Modelled from the spec: `ccn_read_uint(n, r, data_size, data)`, which
reads a big-endian unsigned byte string into the `n`-unit number `r`
(corecrypto routine).  It returns a nonzero code and leaves `r` alone when
`data_size` bytes do not fit `n` units.  The result is the return code and the
new content of `r`. -/
def ccn_read_uint (n : Nat) (r : Nat) (data_size : Nat) (data : List Nat) : Int × Nat :=
  if data_size > ccn_sizeof_n n then (-1, r) else (0, be_value (data.take data_size))

/-- Modelled from the spec: `ccn_cmpn(ns, s, nt, t)`, the three-way
comparison of the `ns`-unit number `s` with the `nt`-unit number `t`
(corecrypto routine): 1, 0 or -1. -/
def ccn_cmpn (ns : Nat) (s : Nat) (nt : Nat) (t : Nat) : Int :=
  if ccn_value ns s > ccn_value nt t then 1
  else if ccn_value ns s < ccn_value nt t then -1
  else 0

/-- Modelled from the spec: `ccn_n(n, x)`, the number of units of the
`n`-unit number `x` up to its most significant nonzero unit (corecrypto
routine). -/
def ccn_n (n : Nat) (x : Nat) : Nat := (ccn_bitlen n x + 63) / 64

/-- Modelled from the spec: `ccn_write_uint_size(n, x)`, the number of bytes of
the minimal big-endian unsigned encoding of the `n`-unit number `x`
(corecrypto routine). -/
def ccn_write_uint_size (n : Nat) (x : Nat) : Nat := (ccn_bitlen n x + 7) / 8

/-- The `k` low-order bytes of `x`, most significant first. -/
def be_bytes : Nat → Nat → List Nat
  | 0, _ => []
  | k + 1, x => be_bytes k (x / 256) ++ [x % 256]

/-- Modelled from the spec: `ccn_write_uint(n, x, out_size, out)`, which writes
the `n`-unit number `x` big-endian into the first `out_size` bytes of `out`
(corecrypto routine).  Only the bytes the `n` units provide are written, at the
end of that range; the result is the new content of `out`. -/
def ccn_write_uint (n : Nat) (x : Nat) (out_size : Nat) (out : List Nat) : List Nat :=
  out.take (out_size - ccn_sizeof_n n) ++
    be_bytes (min out_size (ccn_sizeof_n n)) (ccn_value n x) ++ out.drop out_size

/-- Modelled from the spec: `ccn_write_uint_padded(n, x, out_size, out)`, which
writes the `n`-unit number `x` big-endian into the first `out_size` bytes of
`out`, with leading zero bytes (corecrypto routine). -/
def ccn_write_uint_padded (n : Nat) (x : Nat) (out_size : Nat) (out : List Nat) : List Nat :=
  be_bytes out_size (ccn_value n x) ++ out.drop out_size

/-- Modelled from the spec: `ccn_write_int_size(n, x)`, the number of bytes of
the big-endian two's-complement encoding of the nonnegative `n`-unit number
`x`, which has a leading zero byte when the top bit would be set (corecrypto
routine). -/
def ccn_write_int_size (n : Nat) (x : Nat) : Nat := (ccn_bitlen n x + 8) / 8

/-- Modelled from the spec: `ccn_write_int(n, x, out_size, out)` into a fresh
array of `out_size` bytes (corecrypto routine): the bytes written. -/
def ccn_write_int (n : Nat) (x : Nat) (out_size : Nat) : List Nat :=
  be_bytes out_size (ccn_value n x)

/-! ## The key object -/

/-- The public part of an RSA context (`ccrsa_pub_ctx`): unit count, modulus
and public exponent.  It is the leading part of the full context. -/
structure ccrsa_pub_ctx where
  n : Nat
  m : Nat
  e : Nat
  deriving DecidableEq

/-- The opaque arithmetic context (`ccrsa_full_ctx`), seen through
corecrypto's accessors: `n` is `ccrsa_ctx_n` (also `CCZP_N(ccrsa_ctx_zm)`),
`m`, `e`, `d` the modulus and exponents, `zp_n`/`zp_prime` and
`zq_n`/`zq_prime` the unit counts and values of the two factors, and `dp`,
`dq`, `qinv` the CRT terms. -/
structure ccrsa_full_ctx where
  n : Nat
  m : Nat
  e : Nat
  d : Nat
  zp_n : Nat
  zp_prime : Nat
  zq_n : Nat
  zq_prime : Nat
  dp : Nat
  dq : Nat
  qinv : Nat
  deriving DecidableEq

/-- The accessor `ccrsa_ctx_public(fk)`: the public view of a full context. -/
def ccrsa_ctx_public (fk : ccrsa_full_ctx) : ccrsa_pub_ctx :=
  { n := fk.n, m := fk.m, e := fk.e }

/-- Writing through the public view: an engine routine that fills
`ccrsa_ctx_public(fk)` changes exactly the public fields of `fk`. -/
def ccrsa_ctx_store_public (fk : ccrsa_full_ctx) (pk : ccrsa_pub_ctx) : ccrsa_full_ctx :=
  { fk with n := pk.n, m := pk.m, e := pk.e }

/-- The key object `struct _CCRSACryptor`. -/
structure CCRSACryptor where
  fk : ccrsa_full_ctx
  key_nbits : Nat
  keyType : CCRSAKeyType
  deriving DecidableEq

/-- A key handle `CCRSACryptorRef`: a possibly null pointer to a key object. -/
abbrev CCRSACryptorRef := Option CCRSACryptor

/-- The constant `kCCMaximumRSAKeyBits`. -/
def kCCMaximumRSAKeyBits : Nat := 4096

/-- The allocator `ccMallocRSACryptor(nbits)`.  `mem` is what `CC_XMALLOC`
returns: `none` on failure, else the (uninitialised) block. -/
def ccMallocRSACryptor (mem : Option CCRSACryptor) (nbits : Nat) : Option CCRSACryptor :=
  let n := ccn_nof nbits
  match mem with
  | none => none
  | some retval => some { retval with key_nbits := nbits, fk := { retval.fk with n := n } }

/-- The helper `ccRSAkeysize(cryptor)`: the bit length of the stored modulus. -/
def ccRSAkeysize (cryptor : CCRSACryptor) : Nat :=
  ccn_bitlen cryptor.fk.n cryptor.fk.m

/-! ## External collaborators -/

/-- A digest descriptor as returned by the digest registry. -/
structure ccdigest_info where
  oid : List Nat
  output_size : Nat
  block_size : Nat
  deriving DecidableEq

/-- The state of the secure random generator. -/
structure ccrng_state where
  seed : Nat
  deriving DecidableEq

/-- What `ccrsa_make_fips186_key` hands back: its return code, the context
it filled, and the unit counts and values of the four numbers it exports
(`p`, `q`, the modulus `m` and the private exponent `d`). -/
structure fips186_key_result where
  rc : Int
  fk : ccrsa_full_ctx
  np : Nat
  p : Nat
  nq : Nat
  q : Nat
  nm : Nat
  m : Nat
  nd : Nat
  d : Nat
  deriving DecidableEq

/-- The engine routines `CommonRSACryptor.c` calls, by name. -/
inductive EngineCall where
  | ccrsa_export_pub_size
  | ccrsa_export_pub
  | ccrsa_export_priv_size
  | ccrsa_export_priv
  | ccrsa_import_priv_n
  | ccrsa_import_pub_n
  | ccrsa_import_pub
  | ccrsa_import_priv
  | ccrsa_encrypt_eme_pkcs1v15
  | ccrsa_encrypt_oaep
  | ccrsa_decrypt_eme_pkcs1v15
  | ccrsa_decrypt_oaep
  | ccrsa_make_pub
  | ccrsa_crt_makekey
  | ccrsa_sign_pkcs1v15
  | ccrsa_sign_pss
  | ccrsa_verify_pkcs1v15
  | ccrsa_verify_pss
  | ccrsa_generate_fips186_key
  | ccrsa_make_fips186_key
  | ccrsa_init_pub
  | ccrsa_pub_crypt
  | ccrsa_priv_crypt
  deriving DecidableEq

/-- The external collaborators of the facade.  A routine that takes a
`(length, pointer)` pair of input bytes receives the first `length` bytes; a
routine that writes through a pointer returns the new content of the target
next to its return code.

* `ccrsa_export_pub_size pk`, `ccrsa_export_priv_size fk`: encoded sizes.
* `ccrsa_export_pub pk size out`, `ccrsa_export_priv fk size out`: return
  code and new content of `out`.
* `ccrsa_import_priv_n pkg`, `ccrsa_import_pub_n pkg`: the probes, 0 when the
  package is not recognised, else the unit count of its modulus.
* `ccrsa_import_pub pk pkg`, `ccrsa_import_priv fk pkg`: the full parses.
* `ccrsa_make_pub pk exponent modulus`.
* `ccrsa_crt_makekey fk`: all eight arguments of the C call point into `fk`.
* `ccrsa_encrypt_eme_pkcs1v15 pk rng r_size r s`,
  `ccrsa_encrypt_oaep pk di rng r_size r s tagLen tag`,
  `ccrsa_decrypt_eme_pkcs1v15 fk r_size r s`,
  `ccrsa_decrypt_oaep fk di r_size r s tagLen tag`: return code, new `*r_size`
  and new content of `r`.
* `ccrsa_sign_pkcs1v15 fk oid digest sig_len sig`,
  `ccrsa_sign_pss fk di saltLen rng digest sig_len sig`: return code, new
  `*sig_len` and new content of `sig`.
* `ccrsa_verify_pkcs1v15 pk oid digest sig`,
  `ccrsa_verify_pss pk di digest sig saltLen`: return code and the final value
  of the validity flag (which the caller initialises to false).
* `CCDigestGetDigestInfo`: the digest registry.
* `ccDRBGGetRngState`: the process-wide random generator, `none` when
  unavailable.
* `ccrsa_generate_fips186_key nbits fk e rng`: the randomized key search, with
  the exponent as bytes; return code and new content of `fk`.
* `ccrsa_make_fips186_key nbits e xp1 xp2 xp xq1 xq2 xq fk n`: the
  deterministic key construction; `e` is the one-unit exponent, each candidate
  is a unit count with a value, and `n` is the value of `*np`, `*nq`, `*nm` and
  `*nd` on entry.
* `ccrsa_init_pub pk m e`: new content of the public context `pk`.
* `ccrsa_pub_crypt pk x`, `ccrsa_priv_crypt fk x`: raw modular exponentiation
  of the number `x`, in place; return code and new content of the number. -/
structure Engine where
  ccrsa_export_pub_size : ccrsa_pub_ctx → Nat
  ccrsa_export_pub : ccrsa_pub_ctx → Nat → List Nat → Int × List Nat
  ccrsa_export_priv_size : ccrsa_full_ctx → Nat
  ccrsa_export_priv : ccrsa_full_ctx → Nat → List Nat → Int × List Nat
  ccrsa_import_priv_n : List Nat → Nat
  ccrsa_import_pub_n : List Nat → Nat
  ccrsa_import_pub : ccrsa_pub_ctx → List Nat → Int × ccrsa_pub_ctx
  ccrsa_import_priv : ccrsa_full_ctx → List Nat → Int × ccrsa_full_ctx
  ccrsa_make_pub : ccrsa_pub_ctx → List Nat → List Nat → Int × ccrsa_pub_ctx
  ccrsa_crt_makekey : ccrsa_full_ctx → Int × ccrsa_full_ctx
  ccrsa_encrypt_eme_pkcs1v15 :
    ccrsa_pub_ctx → Option ccrng_state → Nat → List Nat → List Nat → Int × Nat × List Nat
  ccrsa_encrypt_oaep :
    ccrsa_pub_ctx → Option ccdigest_info → Option ccrng_state → Nat → List Nat → List Nat →
      Nat → Option (List Nat) → Int × Nat × List Nat
  ccrsa_decrypt_eme_pkcs1v15 :
    ccrsa_full_ctx → Nat → List Nat → List Nat → Int × Nat × List Nat
  ccrsa_decrypt_oaep :
    ccrsa_full_ctx → Option ccdigest_info → Nat → List Nat → List Nat →
      Nat → Option (List Nat) → Int × Nat × List Nat
  ccrsa_sign_pkcs1v15 :
    ccrsa_full_ctx → List Nat → List Nat → Nat → List Nat → Int × Nat × List Nat
  ccrsa_sign_pss :
    ccrsa_full_ctx → ccdigest_info → Nat → Option ccrng_state → List Nat → Nat → List Nat →
      Int × Nat × List Nat
  ccrsa_verify_pkcs1v15 : ccrsa_pub_ctx → List Nat → List Nat → List Nat → Int × Bool
  ccrsa_verify_pss : ccrsa_pub_ctx → ccdigest_info → List Nat → List Nat → Nat → Int × Bool
  CCDigestGetDigestInfo : CCDigestAlgorithm → Option ccdigest_info
  ccDRBGGetRngState : Option ccrng_state
  ccrsa_generate_fips186_key :
    Nat → ccrsa_full_ctx → List Nat → ccrng_state → Int × ccrsa_full_ctx
  ccrsa_make_fips186_key :
    Nat → Nat → Nat × Nat → Nat × Nat → Nat × Nat → Nat × Nat → Nat × Nat → Nat × Nat →
      ccrsa_full_ctx → Nat → fips186_key_result
  ccrsa_init_pub : ccrsa_pub_ctx → Nat → Nat → ccrsa_pub_ctx
  ccrsa_pub_crypt : ccrsa_pub_ctx → Nat → Int × Nat
  ccrsa_priv_crypt : ccrsa_full_ctx → Nat → Int × Nat

/-! ## Import and export -/

/-- What the caller of `CCRSACryptorImport` observes: the status, the content
of `*key` (`none` when the `key` pointer itself is null) and the engine
calls. -/
structure ImportResult where
  status : CCCryptorStatus
  key : Option CCRSACryptorRef
  calls : List EngineCall
  deriving DecidableEq

/-- The operation `CCRSACryptorImport(keyPackage, keyPackageLen, key)`. -/
def CCRSACryptorImport (E : Engine) (mem : Option CCRSACryptor)
    (keyPackage : Option (List Nat)) (keyPackageLen : Nat)
    (key : Option CCRSACryptorRef) : ImportResult :=
  match keyPackage, key with
  | none, _ => ⟨kCCParamError, key, []⟩
  | some _, none => ⟨kCCParamError, none, []⟩
  | some pkg, some key0 =>
    let bytes := pkg.take keyPackageLen
    let privN := E.ccrsa_import_priv_n bytes
    if privN ≠ 0 then
      -- keyToMake = ccRSAKeyPrivate, keyN = privN
      match ccMallocRSACryptor mem kCCMaximumRSAKeyBits with
      | none => ⟨kCCMemoryFailure, some none, [.ccrsa_import_priv_n]⟩
      | some cryptor =>
        let r := E.ccrsa_import_priv { cryptor.fk with n := privN } bytes
        if r.1 ≠ 0 then
          ⟨kCCDecodeError, some key0, [.ccrsa_import_priv_n, .ccrsa_import_priv]⟩
        else
          let cryptor : CCRSACryptor := { cryptor with fk := r.2, keyType := ccRSAKeyPrivate }
          ⟨kCCSuccess, some (some { cryptor with key_nbits := ccRSAkeysize cryptor }),
            [.ccrsa_import_priv_n, .ccrsa_import_priv]⟩
    else
      let pubN := E.ccrsa_import_pub_n bytes
      if pubN ≠ 0 then
        -- keyToMake = ccRSAKeyPublic, keyN = pubN
        match ccMallocRSACryptor mem kCCMaximumRSAKeyBits with
        | none => ⟨kCCMemoryFailure, some none, [.ccrsa_import_priv_n, .ccrsa_import_pub_n]⟩
        | some cryptor =>
          let fk : ccrsa_full_ctx := { cryptor.fk with n := pubN }
          let r := E.ccrsa_import_pub (ccrsa_ctx_public fk) bytes
          if r.1 ≠ 0 then
            ⟨kCCDecodeError, some key0,
              [.ccrsa_import_priv_n, .ccrsa_import_pub_n, .ccrsa_import_pub]⟩
          else
            let cryptor : CCRSACryptor :=
              { cryptor with fk := ccrsa_ctx_store_public fk r.2, keyType := ccRSAKeyPublic }
            ⟨kCCSuccess, some (some { cryptor with key_nbits := ccRSAkeysize cryptor }),
              [.ccrsa_import_priv_n, .ccrsa_import_pub_n, .ccrsa_import_pub]⟩
      else ⟨kCCDecodeError, some key0, [.ccrsa_import_priv_n, .ccrsa_import_pub_n]⟩

/-- What the caller of `CCRSACryptorExport` observes: the status, the content
of the `out` buffer (`none` when `out` is null), the value of `*outLen` and
the engine calls. -/
structure ExportResult where
  status : CCCryptorStatus
  out : Option (List Nat)
  outLen : Nat
  calls : List EngineCall
  deriving DecidableEq

/-- The operation `CCRSACryptorExport(cryptor, out, outLen)`; `outLen` is the
value of `*outLen` on entry. -/
def CCRSACryptorExport (E : Engine) (cryptor : CCRSACryptorRef)
    (out : Option (List Nat)) (outLen : Nat) : ExportResult :=
  match cryptor, out with
  | none, _ => ⟨kCCParamError, out, outLen, []⟩
  | some _, none => ⟨kCCParamError, none, outLen, []⟩
  | some cryptor, some buf =>
    match cryptor.keyType with
    | ccRSAKeyPublic =>
      let bufsiz := E.ccrsa_export_pub_size (ccrsa_ctx_public cryptor.fk)
      if outLen ≤ bufsiz then
        ⟨kCCBufferTooSmall, some buf, bufsiz, [.ccrsa_export_pub_size]⟩
      else
        let r := E.ccrsa_export_pub (ccrsa_ctx_public cryptor.fk) bufsiz buf
        if r.1 ≠ 0 then
          ⟨kCCDecodeError, some r.2, bufsiz, [.ccrsa_export_pub_size, .ccrsa_export_pub]⟩
        else
          ⟨kCCSuccess, some r.2, bufsiz, [.ccrsa_export_pub_size, .ccrsa_export_pub]⟩
    | ccRSAKeyPrivate =>
      let bufsiz := E.ccrsa_export_priv_size cryptor.fk
      if outLen < bufsiz then
        ⟨kCCBufferTooSmall, some buf, bufsiz, [.ccrsa_export_priv_size]⟩
      else
        let r := E.ccrsa_export_priv cryptor.fk bufsiz buf
        if r.1 ≠ 0 then
          ⟨kCCDecodeError, some r.2, bufsiz, [.ccrsa_export_priv_size, .ccrsa_export_priv]⟩
        else
          ⟨kCCSuccess, some r.2, bufsiz, [.ccrsa_export_priv_size, .ccrsa_export_priv]⟩
    | _ => ⟨kCCParamError, some buf, outLen, []⟩

/-! ## Encryption and decryption -/

/-- What the caller of `CCRSACryptorEncrypt` or `CCRSACryptorDecrypt`
observes: the status, the content of the output buffer and of the output
length (`none` when the pointer is null) and the engine calls. -/
structure CryptResult where
  status : CCCryptorStatus
  out : Option (List Nat)
  outLen : Option Nat
  calls : List EngineCall
  deriving DecidableEq

/-- The operation `CCRSACryptorEncrypt`. -/
def CCRSACryptorEncrypt (E : Engine) (publicKey : CCRSACryptorRef)
    (padding : CCAsymmetricPadding) (plainText : Option (List Nat)) (plainTextLen : Nat)
    (cipherText : Option (List Nat)) (cipherTextLen : Option Nat)
    (tagData : Option (List Nat)) (tagDataLen : Nat)
    (digestType : CCDigestAlgorithm) : CryptResult :=
  match publicKey, cipherText, plainText, cipherTextLen with
  | some publicKey, some ct, some pt, some ctLen =>
    match padding with
    | ccPKCS1Padding =>
      let r := E.ccrsa_encrypt_eme_pkcs1v15 (ccrsa_ctx_public publicKey.fk) E.ccDRBGGetRngState
        ctLen ct (pt.take plainTextLen)
      ⟨if r.1 ≠ 0 then kCCDecodeError else kCCSuccess, some r.2.2, some r.2.1,
        [.ccrsa_encrypt_eme_pkcs1v15]⟩
    | ccOAEPPadding =>
      let r := E.ccrsa_encrypt_oaep (ccrsa_ctx_public publicKey.fk)
        (E.CCDigestGetDigestInfo digestType) E.ccDRBGGetRngState
        ctLen ct (pt.take plainTextLen) tagDataLen tagData
      ⟨if r.1 ≠ 0 then kCCDecodeError else kCCSuccess, some r.2.2, some r.2.1,
        [.ccrsa_encrypt_oaep]⟩
    | _ => ⟨kCCParamError, some ct, some ctLen, []⟩
  | _, _, _, _ => ⟨kCCParamError, cipherText, cipherTextLen, []⟩

/-- The operation `CCRSACryptorDecrypt`.  `retval` starts as `kCCSuccess`; the
`default` arm of the `switch` jumps to `errOut` without assigning it. -/
def CCRSACryptorDecrypt (E : Engine) (privateKey : CCRSACryptorRef)
    (padding : CCAsymmetricPadding) (cipherText : Option (List Nat)) (cipherTextLen : Nat)
    (plainText : Option (List Nat)) (plainTextLen : Option Nat)
    (tagData : Option (List Nat)) (tagDataLen : Nat)
    (digestType : CCDigestAlgorithm) : CryptResult :=
  let retval := kCCSuccess
  match privateKey, cipherText, plainText, plainTextLen with
  | some privateKey, some ct, some pt, some ptLen =>
    match padding with
    | ccPKCS1Padding =>
      let r := E.ccrsa_decrypt_eme_pkcs1v15 privateKey.fk ptLen pt (ct.take cipherTextLen)
      ⟨if r.1 ≠ 0 then kCCDecodeError else retval, some r.2.2, some r.2.1,
        [.ccrsa_decrypt_eme_pkcs1v15]⟩
    | ccOAEPPadding =>
      let r := E.ccrsa_decrypt_oaep privateKey.fk (E.CCDigestGetDigestInfo digestType)
        ptLen pt (ct.take cipherTextLen) tagDataLen tagData
      ⟨if r.1 ≠ 0 then kCCDecodeError else retval, some r.2.2, some r.2.1,
        [.ccrsa_decrypt_oaep]⟩
    | _ => ⟨retval, some pt, some ptLen, []⟩
  | _, _, _, _ => ⟨kCCParamError, plainText, plainTextLen, []⟩

/-! ## Construction from key material -/

/-- The helper `malloc_rsa_cryptor(modulus_nbytes)`. -/
def malloc_rsa_cryptor (mem : Option CCRSACryptor) (modulus_nbytes : Nat) :
    Option CCRSACryptor :=
  if modulus_nbytes = 0 then none
  else
    let nbits := ccn_bitsof_size modulus_nbytes
    ccMallocRSACryptor mem nbits

/-- What the caller of `CCRSACryptorCreateFromData` observes: the status, the
content of `*ref` (`none` when the `ref` pointer itself is null) and the
engine calls. -/
structure CreateResult where
  status : CCCryptorStatus
  ref : Option CCRSACryptorRef
  calls : List EngineCall
  deriving DecidableEq

/-- The static function `create_pub`.  Every `expect(cond)` that fails leaves
through `errOut` with `kCCParamError`, without writing `*ref`. -/
def create_pub (E : Engine) (mem : Option CCRSACryptor)
    (modulus : Option (List Nat)) (modulusLength : Nat)
    (publicExponent : Option (List Nat)) (publicExponentLength : Nat)
    (ref : Option CCRSACryptorRef) : CreateResult :=
  match modulus, publicExponent, ref with
  | some modulus, some publicExponent, some ref0 =>
    if modulusLength = 0 ∨ publicExponentLength = 0 then ⟨kCCParamError, some ref0, []⟩
    else
      let n := ccn_nof_size modulusLength
      if n = 0 then ⟨kCCParamError, some ref0, []⟩
      else
        match malloc_rsa_cryptor mem modulusLength with
        | none => ⟨kCCParamError, some ref0, []⟩
        | some rsaKey =>
          let fk : ccrsa_full_ctx := { rsaKey.fk with n := n }
          let r := E.ccrsa_make_pub (ccrsa_ctx_public fk)
            (publicExponent.take publicExponentLength) (modulus.take modulusLength)
          if r.1 ≠ 0 then ⟨kCCParamError, some ref0, [.ccrsa_make_pub]⟩
          else
            let fk := ccrsa_ctx_store_public fk r.2
            ⟨kCCSuccess,
              some (some { fk := fk, key_nbits := ccn_bitlen n fk.m, keyType := ccRSAKeyPublic }),
              [.ccrsa_make_pub]⟩
  | _, _, _ => ⟨kCCParamError, ref, []⟩

/-- The static function `create_priv`.  Every `expect(cond)` that fails leaves
through `errOut` with `kCCParamError`, without writing `*ref`. -/
def create_priv (E : Engine) (mem : Option CCRSACryptor)
    (publicExponent : Option (List Nat)) (publicExponentLength : Nat)
    (p : Option (List Nat)) (pLength : Nat) (q : Option (List Nat)) (qLength : Nat)
    (ref : Option CCRSACryptorRef) : CreateResult :=
  match publicExponent, p, q, ref with
  | some publicExponent, some p, some q, some ref0 =>
    if publicExponentLength = 0 ∨ pLength = 0 ∨ qLength = 0 ∨ pLength ≠ qLength then
      ⟨kCCParamError, some ref0, []⟩
    else
      let modulusLength := (pLength + qLength) % SIZE_T_RANGE
      let n := ccn_nof_size modulusLength
      if n = 0 then ⟨kCCParamError, some ref0, []⟩
      else
        match malloc_rsa_cryptor mem modulusLength with
        | none => ⟨kCCParamError, some ref0, []⟩
        | some rsaKey =>
          let fk := rsaKey.fk
          let np := ccn_nof_size pLength
          if np = 0 then ⟨kCCParamError, some ref0, []⟩
          else
            let nq := ccn_nof_size qLength
            if nq = 0 then ⟨kCCParamError, some ref0, []⟩
            else
              let fk : ccrsa_full_ctx := { fk with zp_n := np }
              let rp := ccn_read_uint np fk.zp_prime pLength p
              let fk : ccrsa_full_ctx := { fk with zp_prime := rp.2 }
              if rp.1 ≠ 0 then ⟨kCCParamError, some ref0, []⟩
              else
                let fk : ccrsa_full_ctx := { fk with zq_n := nq }
                let rq := ccn_read_uint nq fk.zq_prime qLength q
                let fk : ccrsa_full_ctx := { fk with zq_prime := rq.2 }
                if rq.1 ≠ 0 then ⟨kCCParamError, some ref0, []⟩
                else
                  let rc := ccn_cmpn np fk.zp_prime nq fk.zq_prime
                  if ¬ (rc > 0) then ⟨kCCParamError, some ref0, []⟩
                  else
                    let fk : ccrsa_full_ctx := { fk with n := n }
                    let re := ccn_read_uint n fk.e publicExponentLength publicExponent
                    let fk : ccrsa_full_ctx := { fk with e := re.2 }
                    if re.1 ≠ 0 then ⟨kCCParamError, some ref0, []⟩
                    else
                      let rk := E.ccrsa_crt_makekey fk
                      if rk.1 ≠ 0 then ⟨kCCParamError, some ref0, [.ccrsa_crt_makekey]⟩
                      else
                        ⟨kCCSuccess,
                          some (some { fk := rk.2, key_nbits := ccn_bitlen n rk.2.m,
                                       keyType := ccRSAKeyPrivate }),
                          [.ccrsa_crt_makekey]⟩
  | _, _, _, _ => ⟨kCCParamError, ref, []⟩

/-- The operation `CCRSACryptorCreateFromData`. -/
def CCRSACryptorCreateFromData (E : Engine) (mem : Option CCRSACryptor)
    (keyType : CCRSAKeyType) (modulus : Option (List Nat)) (modulusLength : Nat)
    (publicExponent : Option (List Nat)) (publicExponentLength : Nat)
    (p : Option (List Nat)) (pLength : Nat) (q : Option (List Nat)) (qLength : Nat)
    (ref : Option CCRSACryptorRef) : CreateResult :=
  if keyType = ccRSAKeyPublic then
    create_pub E mem modulus modulusLength publicExponent publicExponentLength ref
  else if keyType = ccRSAKeyPrivate then
    create_priv E mem publicExponent publicExponentLength p pLength q qLength ref
  else ⟨kCCParamError, ref, []⟩

/-! ## Signing and verification -/

/-- The static function `validate_sign_verify_params`: the digest descriptor
when every check passes, `none` (null) otherwise.  `DataLen_null` says whether
the `DataLen` pointer is null. -/
def validate_sign_verify_params (E : Engine) (privateKey : CCRSACryptorRef)
    (padding : CCAsymmetricPadding) (hash : Option (List Nat))
    (digestType : CCDigestAlgorithm) (data : Option (List Nat)) (DataLen_null : Bool) :
    Option ccdigest_info :=
  if digestType ≠ kCCDigestSHA1 ∧ digestType ≠ kCCDigestSHA224 ∧ digestType ≠ kCCDigestSHA256
      ∧ digestType ≠ kCCDigestSHA384 ∧ digestType ≠ kCCDigestSHA512 then none
  else
    let di := E.CCDigestGetDigestInfo digestType
    if privateKey = none ∨ hash = none ∨ data = none ∨ DataLen_null = true ∨ di = none then none
    else if padding ≠ ccPKCS1Padding ∧ padding ≠ ccRSAPSSPadding then none
    else di

/-- What the caller of `CCRSACryptorSign` observes: the status, the content
of the signature buffer, the value of `*signedDataLen` and the engine calls. -/
structure SignResult where
  status : CCCryptorStatus
  signedData : Option (List Nat)
  signedDataLen : Nat
  calls : List EngineCall
  deriving DecidableEq

/-- The operation `CCRSACryptorSign`.  The source passes `signedData` for both
the `data` and the `DataLen` argument of the validator.  `signedDataLen` is the
value of `*signedDataLen` on entry. -/
def CCRSACryptorSign (E : Engine) (privateKey : CCRSACryptorRef)
    (padding : CCAsymmetricPadding) (hashToSign : Option (List Nat)) (hashSignLen : Nat)
    (digestType : CCDigestAlgorithm) (saltLen : Nat)
    (signedData : Option (List Nat)) (signedDataLen : Nat) : SignResult :=
  match validate_sign_verify_params E privateKey padding hashToSign digestType signedData
      signedData.isNone with
  | none => ⟨kCCParamError, signedData, signedDataLen, []⟩
  | some di =>
    match privateKey, hashToSign, signedData with
    | some key, some hash, some sig =>
      if padding = ccPKCS1Padding then
        let r := E.ccrsa_sign_pkcs1v15 key.fk di.oid (hash.take hashSignLen) signedDataLen sig
        ⟨if r.1 = 0 then kCCSuccess else kCCDecodeError, some r.2.2, r.2.1,
          [.ccrsa_sign_pkcs1v15]⟩
      else
        let r := E.ccrsa_sign_pss key.fk di saltLen E.ccDRBGGetRngState
          (hash.take hashSignLen) signedDataLen sig
        ⟨if r.1 = 0 then kCCSuccess else kCCDecodeError, some r.2.2, r.2.1,
          [.ccrsa_sign_pss]⟩
    -- not reached: the validator returned a descriptor, so no pointer is null
    | _, _, _ => ⟨kCCParamError, signedData, signedDataLen, []⟩

/-- What the caller of `CCRSACryptorVerify` observes: the status and the
engine calls. -/
structure VerifyResult where
  status : CCCryptorStatus
  calls : List EngineCall
  deriving DecidableEq

/-- The operation `CCRSACryptorVerify`.  The `DataLen` argument of the
validator is the address of a parameter, never null. -/
def CCRSACryptorVerify (E : Engine) (publicKey : CCRSACryptorRef)
    (padding : CCAsymmetricPadding) (hash : Option (List Nat)) (hashLen : Nat)
    (digestType : CCDigestAlgorithm) (saltLen : Nat)
    (signedData : Option (List Nat)) (signedDataLen : Nat) : VerifyResult :=
  match validate_sign_verify_params E publicKey padding hash digestType signedData false with
  | none => ⟨kCCParamError, []⟩
  | some di =>
    match publicKey, hash, signedData with
    | some key, some hash, some sig =>
      let fk := ccrsa_ctx_public key.fk
      if padding = ccPKCS1Padding then
        let r := E.ccrsa_verify_pkcs1v15 fk di.oid (hash.take hashLen) (sig.take signedDataLen)
        ⟨if r.2 = false ∨ r.1 ≠ 0 then kCCDecodeError else kCCSuccess,
          [.ccrsa_verify_pkcs1v15]⟩
      else
        let r := E.ccrsa_verify_pss fk di (hash.take hashLen) (sig.take signedDataLen) saltLen
        ⟨if r.2 = false ∨ r.1 ≠ 0 then kCCDecodeError else kCCSuccess,
          [.ccrsa_verify_pss]⟩
    -- not reached: the validator returned a descriptor, so no pointer is null
    | _, _, _ => ⟨kCCParamError, []⟩

/-! ## Key generation -/

/-- The operation `CCRSACryptorGetPublicKeyFromPrivateKey`: `none` (null) when
the allocation fails, else the public key object.  `mem` is what the
allocation returns. -/
def CCRSACryptorGetPublicKeyFromPrivateKey (E : Engine) (mem : Option CCRSACryptor)
    (privateCryptor : CCRSACryptor) : CCRSACryptorRef :=
  match ccMallocRSACryptor mem privateCryptor.key_nbits with
  | none => none
  | some publicCryptor =>
    let pk := E.ccrsa_init_pub (ccrsa_ctx_public publicCryptor.fk)
      privateCryptor.fk.m privateCryptor.fk.e
    some { publicCryptor with fk := ccrsa_ctx_store_public publicCryptor.fk pk,
                              keyType := ccRSAKeyPublic }

/-- What the caller of `CCRSACryptorGeneratePair` observes: the status, the
content of `*publicKey` and of `*privateKey`, and the engine calls. -/
structure GeneratePairResult where
  status : CCCryptorStatus
  publicKey : CCRSACryptorRef
  privateKey : CCRSACryptorRef
  calls : List EngineCall
  deriving DecidableEq

/-- The operation `CCRSACryptorGeneratePair(keysize, e, publicKey, privateKey)`.
`mem1` and `mem2` are what the first and the second allocation return.  Every
failure leaves through `errOut`, which sets both handles to null. -/
def CCRSACryptorGeneratePair (E : Engine) (mem1 mem2 : Option CCRSACryptor)
    (keysize : Nat) (e : Nat) : GeneratePairResult :=
  let cc_unit_e := e % 2 ^ 32
  let eSize := ccn_write_int_size 1 cc_unit_e
  let eBytes := ccn_write_int 1 cc_unit_e eSize
  if ¬ keysize ≤ kCCMaximumRSAKeyBits then ⟨kCCParamError, none, none, []⟩
  else
    match E.ccDRBGGetRngState with
    | none => ⟨kCCRNGFailure, none, none, []⟩
    | some rng =>
      match ccMallocRSACryptor mem1 keysize with
      | none => ⟨kCCMemoryFailure, none, none, []⟩
      | some privateCryptor =>
        let r := E.ccrsa_generate_fips186_key keysize privateCryptor.fk eBytes rng
        if ¬ r.1 = 0 then ⟨kCCDecodeError, none, none, [.ccrsa_generate_fips186_key]⟩
        else
          let privateCryptor : CCRSACryptor :=
            { privateCryptor with fk := r.2, keyType := ccRSAKeyPrivate }
          match CCRSACryptorGetPublicKeyFromPrivateKey E mem2 privateCryptor with
          | none => ⟨kCCMemoryFailure, none, none, [.ccrsa_generate_fips186_key]⟩
          | some publicCryptor =>
            ⟨kCCSuccess, some publicCryptor, some privateCryptor,
              [.ccrsa_generate_fips186_key, .ccrsa_init_pub]⟩

/-- The static function `ccn_write_arg(n, source, dest, destLen)`: the status,
the new content of `dest` and the new value of `*destLen`. -/
def ccn_write_arg (n : Nat) (source : Nat) (dest : List Nat) (destLen : Nat) :
    CCCryptorStatus × List Nat × Nat :=
  let len := ccn_write_uint_size n source
  if len > destLen then (kCCMemoryFailure, dest, destLen)
  else (kCCSuccess, ccn_write_uint n source len dest, len)

/-- What the caller of `CCRSACryptorCreatePairFromData` observes: the status,
the two handles, the four output buffers with their lengths, and the engine
calls. -/
structure CreatePairResult where
  status : CCCryptorStatus
  publicKey : CCRSACryptorRef
  privateKey : CCRSACryptorRef
  retp : List Nat
  retpLength : Nat
  retq : List Nat
  retqLength : Nat
  retm : List Nat
  retmLength : Nat
  retd : List Nat
  retdLength : Nat
  calls : List EngineCall
  deriving DecidableEq

/-- The operation `CCRSACryptorCreatePairFromData`.  `mem1` and `mem2` are
what the two allocations return and `stack` is the content of the
uninitialised local arrays the candidates are read into.  The four calls of
`ccn_write_arg` are statements: their status is not looked at. -/
def CCRSACryptorCreatePairFromData (E : Engine) (mem1 mem2 : Option CCRSACryptor)
    (stack : Nat) (e : Nat)
    (xp1 : List Nat) (xp1Length : Nat) (xp2 : List Nat) (xp2Length : Nat)
    (xp : List Nat) (xpLength : Nat)
    (xq1 : List Nat) (xq1Length : Nat) (xq2 : List Nat) (xq2Length : Nat)
    (xq : List Nat) (xqLength : Nat)
    (retp : List Nat) (retpLength : Nat) (retq : List Nat) (retqLength : Nat)
    (retm : List Nat) (retmLength : Nat) (retd : List Nat) (retdLength : Nat) :
    CreatePairResult :=
  let errOut := fun (retval : CCCryptorStatus) (calls : List EngineCall) =>
    (⟨retval, none, none, retp, retpLength, retq, retqLength, retm, retmLength,
      retd, retdLength, calls⟩ : CreatePairResult)
  let nbits := (xpLength * 8 + xqLength * 8) % SIZE_T_RANGE
  let n := ccn_nof nbits
  let e_value := e % 2 ^ 32
  match ccMallocRSACryptor mem1 nbits with
  | none => errOut kCCMemoryFailure []
  | some privateCryptor =>
    let x_p1 := ccn_read_uint (ccn_nof_size xp1Length) stack xp1Length xp1
    if ¬ x_p1.1 = 0 then errOut kCCParamError []
    else
      let x_p2 := ccn_read_uint (ccn_nof_size xp2Length) stack xp2Length xp2
      if ¬ x_p2.1 = 0 then errOut kCCParamError []
      else
        let x_p := ccn_read_uint (ccn_nof_size xpLength) stack xpLength xp
        if ¬ x_p.1 = 0 then errOut kCCParamError []
        else
          let x_q1 := ccn_read_uint (ccn_nof_size xq1Length) stack xq1Length xq1
          if ¬ x_q1.1 = 0 then errOut kCCParamError []
          else
            let x_q2 := ccn_read_uint (ccn_nof_size xq2Length) stack xq2Length xq2
            if ¬ x_q2.1 = 0 then errOut kCCParamError []
            else
              let x_q := ccn_read_uint (ccn_nof_size xqLength) stack xqLength xq
              if ¬ x_q.1 = 0 then errOut kCCParamError []
              else
                let r := E.ccrsa_make_fips186_key nbits e_value
                  (ccn_nof_size xp1Length, x_p1.2) (ccn_nof_size xp2Length, x_p2.2)
                  (ccn_nof_size xpLength, x_p.2)
                  (ccn_nof_size xq1Length, x_q1.2) (ccn_nof_size xq2Length, x_q2.2)
                  (ccn_nof_size xqLength, x_q.2)
                  privateCryptor.fk n
                if ¬ r.rc = 0 then errOut kCCDecodeError [.ccrsa_make_fips186_key]
                else
                  let privateCryptor : CCRSACryptor :=
                    { privateCryptor with fk := r.fk, keyType := ccRSAKeyPrivate }
                  match CCRSACryptorGetPublicKeyFromPrivateKey E mem2 privateCryptor with
                  | none => errOut kCCMemoryFailure [.ccrsa_make_fips186_key]
                  | some publicCryptor =>
                    let wp := ccn_write_arg r.np r.p retp retpLength
                    let wq := ccn_write_arg r.nq r.q retq retqLength
                    let wm := ccn_write_arg r.nm r.m retm retmLength
                    let wd := ccn_write_arg r.nd r.d retd retdLength
                    ⟨kCCSuccess, some publicCryptor, some privateCryptor,
                      wp.2.1, wp.2.2, wq.2.1, wq.2.2, wm.2.1, wm.2.2, wd.2.1, wd.2.2,
                      [.ccrsa_make_fips186_key, .ccrsa_init_pub]⟩

/-! ## Raw modular exponentiation -/

/-- The operation `CCRSACryptorCrypt(rsaKey, in, inLen, out, outLen)`.  `buf0`
is the content of the uninitialised local array `buf`; the return code of
`ccn_read_uint` is not looked at. -/
def CCRSACryptorCrypt (E : Engine) (buf0 : Nat) (rsaKey : CCRSACryptorRef)
    (input : Option (List Nat)) (inLen : Nat)
    (out : Option (List Nat)) (outLen : Option Nat) : CryptResult :=
  match rsaKey, input, out, outLen with
  | some rsaKey, some input, some out0, some outLen0 =>
    let keysizeBytes := ((rsaKey.key_nbits + 7) % SIZE_T_RANGE) / 8
    if inLen ≠ keysizeBytes ∨ outLen0 < keysizeBytes then
      ⟨kCCMemoryFailure, some out0, some outLen0, []⟩
    else
      let n := rsaKey.fk.n
      let buf := (ccn_read_uint n buf0 inLen input).2
      match rsaKey.keyType with
      | ccRSAKeyPublic =>
        let r := E.ccrsa_pub_crypt (ccrsa_ctx_public rsaKey.fk) buf
        if r.1 = 0 then
          ⟨kCCSuccess, some (ccn_write_uint_padded n r.2 keysizeBytes out0), some keysizeBytes,
            [.ccrsa_pub_crypt]⟩
        else ⟨kCCParamError, some out0, some outLen0, [.ccrsa_pub_crypt]⟩
      | ccRSAKeyPrivate =>
        let r := E.ccrsa_priv_crypt rsaKey.fk buf
        if r.1 = 0 then
          ⟨kCCSuccess, some (ccn_write_uint_padded n r.2 keysizeBytes out0), some keysizeBytes,
            [.ccrsa_priv_crypt]⟩
        else ⟨kCCParamError, some out0, some outLen0, [.ccrsa_priv_crypt]⟩
      | _ => ⟨kCCParamError, some out0, some outLen0, []⟩
  | _, _, _, _ => ⟨kCCParamError, out, outLen, []⟩

/-! ## CRT components -/

/-- What the caller of `CCRSAGetCRTComponentsSizes` observes: the status and
the three sizes (`none` when the function does not write them). -/
structure CRTSizesResult where
  status : CCCryptorStatus
  dpSize : Option Nat
  dqSize : Option Nat
  qinvSize : Option Nat
  deriving DecidableEq

/-- The operation `CCRSAGetCRTComponentsSizes`.  `DP_N` and `QINV_N` are the
unit count of `p`, `DQ_N` that of `q`. -/
def CCRSAGetCRTComponentsSizes (rsaKey : CCRSACryptor) : CRTSizesResult :=
  if rsaKey.keyType = ccRSAKeyPrivate then
    ⟨kCCSuccess,
      some (ccn_write_uint_size rsaKey.fk.zp_n rsaKey.fk.dp),
      some (ccn_write_uint_size rsaKey.fk.zq_n rsaKey.fk.dq),
      some (ccn_write_uint_size rsaKey.fk.zp_n rsaKey.fk.qinv)⟩
  else ⟨kCCParamError, none, none, none⟩

/-- What the caller of `CCRSAGetCRTComponents` observes: the status and the
content of the three buffers. -/
structure CRTComponentsResult where
  status : CCCryptorStatus
  dp : List Nat
  dq : List Nat
  qinv : List Nat
  deriving DecidableEq

/-- The operation `CCRSAGetCRTComponents`.  `rc` starts as `kCCParamError` and
becomes `kCCSuccess` only after the three components are written. -/
def CCRSAGetCRTComponents (rsaKey : CCRSACryptor) (dp : List Nat) (dpSize : Nat)
    (dq : List Nat) (dqSize : Nat) (qinv : List Nat) (qinvSize : Nat) :
    CRTComponentsResult :=
  let rc := kCCParamError
  if rsaKey.keyType = ccRSAKeyPrivate then
    match CCRSAGetCRTComponentsSizes rsaKey with
    | ⟨kCCSuccess, some _dpSize, some _dqSize, some _qinvSize⟩ =>
      let fk := rsaKey.fk
      if ¬ ccn_cmpn (ccn_n fk.zp_n fk.zp_prime) fk.zp_prime
            (ccn_n fk.zq_n fk.zq_prime) fk.zq_prime > 0 then ⟨rc, dp, dq, qinv⟩
      else if dpSize ≥ _dpSize ∧ dqSize ≥ _dqSize ∧ qinvSize ≥ _qinvSize then
        ⟨kCCSuccess,
          ccn_write_uint fk.zp_n fk.dp _dpSize dp,
          ccn_write_uint fk.zq_n fk.dq _dqSize dq,
          ccn_write_uint fk.zp_n fk.qinv _qinvSize qinv⟩
      else ⟨rc, dp, dq, qinv⟩
    | _ => ⟨rc, dp, dq, qinv⟩
  else ⟨rc, dp, dq, qinv⟩

/-! ## Notions used to state the properties -/

/-- The exact encoded size of a key: what the engine's size routine reports
for the part of the context `CCRSACryptorExport` encodes for the key's type. -/
def encoded_size (E : Engine) (key : CCRSACryptor) : Nat :=
  match key.keyType with
  | ccRSAKeyPublic => E.ccrsa_export_pub_size (ccrsa_ctx_public key.fk)
  | ccRSAKeyPrivate => E.ccrsa_export_priv_size key.fk
  | _ => 0

/-- A byte string is the minimal-length big-endian unsigned encoding of `v`:
its entries are bytes, it denotes `v`, and it has no leading zero byte (so the
encoding of 0 is empty). -/
def is_minimal_be (bytes : List Nat) (v : Nat) : Prop :=
  (∀ b ∈ bytes, b < 256) ∧ be_value bytes = v ∧ bytes.head? ≠ some 0

/-- The engine's package codec is lossless at a key.  For the package `pkg`
the engine's encoder writes for the key: the encoder succeeds; the probe of the
key's own kind recognises `pkg` (and the private probe does not recognise a
public package); and the engine's import of its own export recovers the same
key material: the full parse of `pkg`, into a context whose unit count is the
one the probe returned, succeeds, and the context it yields is encoded by the
engine with the same size and the same bytes as `pkg`.  Nothing is asked of
any other context. -/
def codec_lossless_at (E : Engine) (key : CCRSACryptor) : Prop :=
  match key.keyType with
  | ccRSAKeyPublic =>
    let pk := ccrsa_ctx_public key.fk
    let size := E.ccrsa_export_pub_size pk
    ∀ out : List Nat,
      let pkg := (E.ccrsa_export_pub pk size out).2.take size
      (E.ccrsa_export_pub pk size out).1 = 0 ∧
      E.ccrsa_import_priv_n pkg = 0 ∧
      E.ccrsa_import_pub_n pkg ≠ 0 ∧
      (∀ c0 : ccrsa_pub_ctx, c0.n = E.ccrsa_import_pub_n pkg →
        (E.ccrsa_import_pub c0 pkg).1 = 0 ∧
        E.ccrsa_export_pub_size (E.ccrsa_import_pub c0 pkg).2 = size ∧
        (∀ out2 : List Nat,
          (E.ccrsa_export_pub (E.ccrsa_import_pub c0 pkg).2 size out2).1 = 0 ∧
          (E.ccrsa_export_pub (E.ccrsa_import_pub c0 pkg).2 size out2).2.take size = pkg))
  | ccRSAKeyPrivate =>
    let size := E.ccrsa_export_priv_size key.fk
    ∀ out : List Nat,
      let pkg := (E.ccrsa_export_priv key.fk size out).2.take size
      (E.ccrsa_export_priv key.fk size out).1 = 0 ∧
      E.ccrsa_import_priv_n pkg ≠ 0 ∧
      (∀ c0 : ccrsa_full_ctx, c0.n = E.ccrsa_import_priv_n pkg →
        (E.ccrsa_import_priv c0 pkg).1 = 0 ∧
        E.ccrsa_export_priv_size (E.ccrsa_import_priv c0 pkg).2 = size ∧
        (∀ out2 : List Nat,
          (E.ccrsa_export_priv (E.ccrsa_import_priv c0 pkg).2 size out2).1 = 0 ∧
          (E.ccrsa_export_priv (E.ccrsa_import_priv c0 pkg).2 size out2).2.take size = pkg))
  | _ => True

/-! ## A reference engine

Textbook RSA on moduli below 65536, with a fixed-width package format.  It is
an instance of `Engine` on which the operations can be run on concrete
inputs. -/

/-- Two big-endian bytes of a number. -/
def be2 (x : Nat) : List Nat := [x / 256 % 256, x % 256]

/-- The two-byte field number `i` of a package, after the tag byte. -/
def pkg_field (pkg : List Nat) (i : Nat) : Nat :=
  be_value ((pkg.drop (1 + 2 * i)).take 2)

/-- Public package of the reference engine: tag 48, modulus, exponent. -/
def ref_pub_package (pk : ccrsa_pub_ctx) : List Nat :=
  48 :: (be2 pk.m ++ be2 pk.e)

/-- Private package of the reference engine: tag 49 and the eight numbers. -/
def ref_priv_package (fk : ccrsa_full_ctx) : List Nat :=
  49 :: (be2 fk.m ++ be2 fk.e ++ be2 fk.d ++ be2 fk.zp_prime ++ be2 fk.zq_prime ++
    be2 fk.dp ++ be2 fk.dq ++ be2 fk.qinv)

/-- Least inverse of `a` modulo `m` (0 when there is none). -/
def mod_inverse (a m : Nat) : Nat :=
  ((List.range m).find? (fun x => a * x % m = 1)).getD 0

/-- Modular exponentiation by squaring, `b ^ x mod m`; `fuel` bounds the
number of halvings of the exponent. -/
def mod_pow_fuel (m : Nat) : Nat → Nat → Nat → Nat
  | 0, _, _ => 1 % m
  | fuel + 1, b, x =>
    if x = 0 then 1 % m
    else if x % 2 = 1 then b * mod_pow_fuel m fuel (b * b % m) (x / 2) % m
    else mod_pow_fuel m fuel (b * b % m) (x / 2)

/-- Modular exponentiation `b ^ x mod m`. -/
def mod_pow (b x m : Nat) : Nat := mod_pow_fuel m x b x

/-- Digest registry of the reference engine: the five SHA digests. -/
def ref_digest_info : CCDigestAlgorithm → Option ccdigest_info
  | kCCDigestSHA1 => some ⟨[43, 14, 3, 2, 26], 20, 64⟩
  | kCCDigestSHA224 => some ⟨[96, 134, 72, 1, 101, 3, 4, 2, 4], 28, 64⟩
  | kCCDigestSHA256 => some ⟨[96, 134, 72, 1, 101, 3, 4, 2, 1], 32, 64⟩
  | kCCDigestSHA384 => some ⟨[96, 134, 72, 1, 101, 3, 4, 2, 2], 48, 128⟩
  | kCCDigestSHA512 => some ⟨[96, 134, 72, 1, 101, 3, 4, 2, 3], 64, 128⟩
  | CCDigestAlgorithm.other _ => none

/-- Textbook signature of the reference engine: `digest ^ d mod m`. -/
def ref_sign (fk : ccrsa_full_ctx) (digest : List Nat) (sig_len : Nat) (sig : List Nat) :
    Int × Nat × List Nat :=
  if sig_len < 2 then (-1, sig_len, sig)
  else (0, 2, be2 (mod_pow (be_value digest % fk.m) fk.d fk.m) ++ sig.drop 2)

/-- Textbook verification of the reference engine: a signature that is not
two bytes long is a decode failure, else `sig ^ e mod m` is compared with the
digest. -/
def ref_verify (pk : ccrsa_pub_ctx) (digest : List Nat) (sig : List Nat) : Int × Bool :=
  if sig.length ≠ 2 then (-1, false)
  else (0, decide (mod_pow (be_value sig) pk.e pk.m = be_value digest % pk.m))

/-- Textbook RSA operation of the reference engine on a byte string. -/
def ref_crypt (m x : Nat) (r_size : Nat) (r : List Nat) (s : List Nat) : Int × Nat × List Nat :=
  if r_size < 2 ∨ m ≤ be_value s then (-1, r_size, r)
  else (0, 2, be2 (mod_pow (be_value s) x m) ++ r.drop 2)

/-- CRT derivation of the reference engine from the factors and exponent held
in the context; it fails when the exponent has no inverse. -/
def ref_crt_derive (fk : ccrsa_full_ctx) : Int × ccrsa_full_ctx :=
  let p := fk.zp_prime
  let q := fk.zq_prime
  let phi := (p - 1) * (q - 1)
  if Nat.gcd fk.e phi ≠ 1 then (-1, fk)
  else
    let d := mod_inverse fk.e phi
    (0, { fk with m := p * q, d := d, dp := d % (p - 1), dq := d % (q - 1),
                  qinv := mod_inverse q p })

/-- Key search of the reference engine: it knows the factors 61 and 53, so it
serves 12-bit requests and rejects every other size and every exponent that
has no inverse. -/
def ref_generate_key (nbits : Nat) (fk : ccrsa_full_ctx) (e : List Nat) :
    Int × ccrsa_full_ctx :=
  if nbits ≠ 12 then (-1, fk)
  else ref_crt_derive { fk with n := 1, e := be_value e, zp_n := 1, zp_prime := 61,
                                zq_n := 1, zq_prime := 53 }

/-- Deterministic key construction of the reference engine: the candidates
`xp` and `xq` are taken as the factors themselves. -/
def ref_make_key (e : Nat) (xp xq : Nat × Nat) (fk : ccrsa_full_ctx) (n : Nat) :
    fips186_key_result :=
  let r := ref_crt_derive { fk with e := e, zp_n := xp.1, zp_prime := ccn_value xp.1 xp.2,
                                    zq_n := xq.1, zq_prime := ccn_value xq.1 xq.2 }
  if r.1 ≠ 0 ∨ r.2.zp_prime ≤ r.2.zq_prime then
    { rc := -1, fk := fk, np := n, p := 0, nq := n, q := 0, nm := n, m := 0, nd := n, d := 0 }
  else
    { rc := 0, fk := r.2, np := xp.1, p := r.2.zp_prime, nq := xq.1, q := r.2.zq_prime,
      nm := n, m := r.2.m, nd := n, d := r.2.d }

/-- Raw RSA operation of the reference engine on a number. -/
def ref_raw_crypt (m x : Nat) (v : Nat) : Int × Nat :=
  if m ≤ v then (-1, v) else (0, mod_pow v x m)

/-- The reference engine. -/
def refEngine : Engine where
  ccrsa_export_pub_size := fun _ => 5
  ccrsa_export_pub := fun pk size out =>
    if size < 5 then (-1, out) else (0, ref_pub_package pk ++ out.drop 5)
  ccrsa_export_priv_size := fun _ => 17
  ccrsa_export_priv := fun fk size out =>
    if size < 17 then (-1, out) else (0, ref_priv_package fk ++ out.drop 17)
  ccrsa_import_priv_n := fun pkg => if pkg.length = 17 ∧ pkg.head? = some 49 then 1 else 0
  ccrsa_import_pub_n := fun pkg => if pkg.length = 5 ∧ pkg.head? = some 48 then 1 else 0
  ccrsa_import_pub := fun pk pkg =>
    if pkg.length = 5 ∧ pkg.head? = some 48 then
      (0, { pk with m := pkg_field pkg 0, e := pkg_field pkg 1 })
    else (-1, pk)
  ccrsa_import_priv := fun fk pkg =>
    if pkg.length = 17 ∧ pkg.head? = some 49 then
      (0, { fk with m := pkg_field pkg 0, e := pkg_field pkg 1, d := pkg_field pkg 2,
                    zp_n := 1, zp_prime := pkg_field pkg 3, zq_n := 1, zq_prime := pkg_field pkg 4,
                    dp := pkg_field pkg 5, dq := pkg_field pkg 6, qinv := pkg_field pkg 7 })
    else (-1, fk)
  ccrsa_make_pub := fun pk exponent modulus =>
    let rm := ccn_read_uint pk.n pk.m modulus.length modulus
    let re := ccn_read_uint pk.n pk.e exponent.length exponent
    if rm.1 ≠ 0 ∨ re.1 ≠ 0 then (-1, pk) else (0, { pk with m := rm.2, e := re.2 })
  ccrsa_crt_makekey := fun fk =>
    let p := fk.zp_prime
    let q := fk.zq_prime
    let phi := (p - 1) * (q - 1)
    if Nat.gcd fk.e phi ≠ 1 then (-1, fk)
    else
      let d := mod_inverse fk.e phi
      (0, { fk with m := p * q, d := d, dp := d % (p - 1), dq := d % (q - 1),
                    qinv := mod_inverse q p })
  ccrsa_encrypt_eme_pkcs1v15 := fun pk _ r_size r s => ref_crypt pk.m pk.e r_size r s
  ccrsa_encrypt_oaep := fun pk _ _ r_size r s _ _ => ref_crypt pk.m pk.e r_size r s
  ccrsa_decrypt_eme_pkcs1v15 := fun fk r_size r s => ref_crypt fk.m fk.d r_size r s
  ccrsa_decrypt_oaep := fun fk _ r_size r s _ _ => ref_crypt fk.m fk.d r_size r s
  ccrsa_sign_pkcs1v15 := fun fk _ digest sig_len sig => ref_sign fk digest sig_len sig
  ccrsa_sign_pss := fun fk _ _ _ digest sig_len sig => ref_sign fk digest sig_len sig
  ccrsa_verify_pkcs1v15 := fun pk _ digest sig => ref_verify pk digest sig
  ccrsa_verify_pss := fun pk _ digest sig _ => ref_verify pk digest sig
  CCDigestGetDigestInfo := ref_digest_info
  ccDRBGGetRngState := some ⟨0⟩
  ccrsa_generate_fips186_key := fun nbits fk e _ => ref_generate_key nbits fk e
  ccrsa_make_fips186_key := fun _ e _ _ xp _ _ xq fk n => ref_make_key e xp xq fk n
  ccrsa_init_pub := fun pk m e => { pk with m := ccn_value pk.n m, e := ccn_value pk.n e }
  ccrsa_pub_crypt := fun pk v => ref_raw_crypt pk.m pk.e v
  ccrsa_priv_crypt := fun fk v => ref_raw_crypt fk.m fk.d v

/-- The context of the textbook key `p = 61`, `q = 53`, `e = 17`. -/
def refContext : ccrsa_full_ctx :=
  { n := 1, m := 3233, e := 17, d := 2753, zp_n := 1, zp_prime := 61, zq_n := 1,
    zq_prime := 53, dp := 53, dq := 49, qinv := 38 }

/-- The textbook key as a private key object. -/
def refPrivateKey : CCRSACryptor :=
  { fk := refContext, key_nbits := 12, keyType := ccRSAKeyPrivate }

/-- The textbook key as a public key object. -/
def refPublicKey : CCRSACryptor :=
  { fk := refContext, key_nbits := 12, keyType := ccRSAKeyPublic }

/-- A freshly allocated block: all fields zero, tag not yet set. -/
def blankCryptor : CCRSACryptor :=
  { fk := { n := 0, m := 0, e := 0, d := 0, zp_n := 0, zp_prime := 0, zq_n := 0,
            zq_prime := 0, dp := 0, dq := 0, qinv := 0 },
    key_nbits := 0, keyType := CCRSAKeyType.other 0 }

/-! ## Properties of the export path -/

/-- Claim C1.  For a key of type Public or Private and a capacity strictly
smaller than the exact encoded size, Export returns `kCCBufferTooSmall`, sets
the length to the exact encoded size, leaves the buffer as it was, and calls
neither encoder of the engine. -/
theorem export_undersized_buffer (E : Engine) (key : CCRSACryptor) (out : List Nat)
    (cap : Nat)
    (hty : key.keyType = ccRSAKeyPublic ∨ key.keyType = ccRSAKeyPrivate)
    (hcap : cap < encoded_size E key) :
    (CCRSACryptorExport E (some key) (some out) cap).status = kCCBufferTooSmall ∧
    (CCRSACryptorExport E (some key) (some out) cap).outLen = encoded_size E key ∧
    (CCRSACryptorExport E (some key) (some out) cap).out = some out ∧
    EngineCall.ccrsa_export_pub ∉ (CCRSACryptorExport E (some key) (some out) cap).calls ∧
    EngineCall.ccrsa_export_priv ∉ (CCRSACryptorExport E (some key) (some out) cap).calls := by
  rcases hty with h | h
  · have hle : cap ≤ E.ccrsa_export_pub_size (ccrsa_ctx_public key.fk) := by
      simp only [encoded_size, h] at hcap
      exact Nat.le_of_lt hcap
    simp [CCRSACryptorExport, encoded_size, h, hle]
  · have hlt : cap < E.ccrsa_export_priv_size key.fk := by
      simpa only [encoded_size, h] using hcap
    simp [CCRSACryptorExport, encoded_size, h, hlt]

/-- Witness for C1: the reference private key (encoded size 17) exported into
a three-byte buffer. -/
theorem export_undersized_buffer_witness :
    (refPrivateKey.keyType = ccRSAKeyPublic ∨ refPrivateKey.keyType = ccRSAKeyPrivate) ∧
    3 < encoded_size refEngine refPrivateKey ∧
    (CCRSACryptorExport refEngine (some refPrivateKey) (some [7, 7, 7]) 3).status
      = kCCBufferTooSmall ∧
    (CCRSACryptorExport refEngine (some refPrivateKey) (some [7, 7, 7]) 3).outLen = 17 ∧
    (CCRSACryptorExport refEngine (some refPrivateKey) (some [7, 7, 7]) 3).out
      = some [7, 7, 7] :=
  have h := export_undersized_buffer refEngine refPrivateKey [7, 7, 7] 3
    (Or.inr rfl) (by decide)
  ⟨Or.inr rfl, by decide, h.1, h.2.1, h.2.2.1⟩

/-- Claim C2 (the code departs from it).  Export of a Public key into a buffer
whose capacity equals the exact encoded size returns `kCCBufferTooSmall`
without calling the encoder: the Public arm compares with `<=` where the
Private arm compares with `<`. -/
theorem export_public_exact_capacity (E : Engine) (fk : ccrsa_full_ctx) (nbits : Nat)
    (out : List Nat) :
    CCRSACryptorExport E (some { fk := fk, key_nbits := nbits, keyType := ccRSAKeyPublic })
        (some out) (E.ccrsa_export_pub_size (ccrsa_ctx_public fk))
      = { status := kCCBufferTooSmall, out := some out,
          outLen := E.ccrsa_export_pub_size (ccrsa_ctx_public fk),
          calls := [EngineCall.ccrsa_export_pub_size] } := by
  simp [CCRSACryptorExport]

/-- Export of a Public key into a buffer larger than the encoding, when the
encoder succeeds. -/
theorem export_public_success (E : Engine) (key : CCRSACryptor) (out : List Nat) (cap : Nat)
    (h : key.keyType = ccRSAKeyPublic)
    (hcap : E.ccrsa_export_pub_size (ccrsa_ctx_public key.fk) < cap)
    (hrc : (E.ccrsa_export_pub (ccrsa_ctx_public key.fk)
      (E.ccrsa_export_pub_size (ccrsa_ctx_public key.fk)) out).1 = 0) :
    CCRSACryptorExport E (some key) (some out) cap
      = { status := kCCSuccess,
          out := some (E.ccrsa_export_pub (ccrsa_ctx_public key.fk)
            (E.ccrsa_export_pub_size (ccrsa_ctx_public key.fk)) out).2,
          outLen := E.ccrsa_export_pub_size (ccrsa_ctx_public key.fk),
          calls := [EngineCall.ccrsa_export_pub_size, EngineCall.ccrsa_export_pub] } := by
  simp [CCRSACryptorExport, h, Nat.not_le.mpr hcap, hrc]

/-- Export of a Private key into a buffer at least as large as the encoding,
when the encoder succeeds. -/
theorem export_private_success (E : Engine) (key : CCRSACryptor) (out : List Nat) (cap : Nat)
    (h : key.keyType = ccRSAKeyPrivate)
    (hcap : E.ccrsa_export_priv_size key.fk ≤ cap)
    (hrc : (E.ccrsa_export_priv key.fk (E.ccrsa_export_priv_size key.fk) out).1 = 0) :
    CCRSACryptorExport E (some key) (some out) cap
      = { status := kCCSuccess,
          out := some (E.ccrsa_export_priv key.fk (E.ccrsa_export_priv_size key.fk) out).2,
          outLen := E.ccrsa_export_priv_size key.fk,
          calls := [EngineCall.ccrsa_export_priv_size, EngineCall.ccrsa_export_priv] } := by
  simp [CCRSACryptorExport, h, Nat.not_lt.mpr hcap, hrc]

/-- Import of a package the private probe rejects and the public probe
recognises, when the allocation and the full parse succeed. -/
theorem import_public_success (E : Engine) (mem0 : CCRSACryptor) (pkg : List Nat) (len : Nat)
    (slot : CCRSACryptorRef)
    (hpriv : E.ccrsa_import_priv_n (pkg.take len) = 0)
    (hpub : E.ccrsa_import_pub_n (pkg.take len) ≠ 0)
    (hrc : (E.ccrsa_import_pub
      { n := E.ccrsa_import_pub_n (pkg.take len), m := mem0.fk.m, e := mem0.fk.e }
      (pkg.take len)).1 = 0) :
    CCRSACryptorImport E (some mem0) (some pkg) len (some slot)
      = { status := kCCSuccess,
          key := some (some
            { fk := ccrsa_ctx_store_public mem0.fk (E.ccrsa_import_pub
                { n := E.ccrsa_import_pub_n (pkg.take len), m := mem0.fk.m, e := mem0.fk.e }
                (pkg.take len)).2,
              key_nbits := ccn_bitlen
                (E.ccrsa_import_pub
                  { n := E.ccrsa_import_pub_n (pkg.take len), m := mem0.fk.m, e := mem0.fk.e }
                  (pkg.take len)).2.n
                (E.ccrsa_import_pub
                  { n := E.ccrsa_import_pub_n (pkg.take len), m := mem0.fk.m, e := mem0.fk.e }
                  (pkg.take len)).2.m,
              keyType := ccRSAKeyPublic }),
          calls := [EngineCall.ccrsa_import_priv_n, EngineCall.ccrsa_import_pub_n,
            EngineCall.ccrsa_import_pub] } := by
  simp [CCRSACryptorImport, hpriv, hpub, ccMallocRSACryptor, ccrsa_ctx_public, hrc,
    ccrsa_ctx_store_public, ccRSAkeysize]

/-- Import of a package the private probe recognises, when the allocation and
the full parse succeed. -/
theorem import_private_success (E : Engine) (mem0 : CCRSACryptor) (pkg : List Nat) (len : Nat)
    (slot : CCRSACryptorRef)
    (hpriv : E.ccrsa_import_priv_n (pkg.take len) ≠ 0)
    (hrc : (E.ccrsa_import_priv { mem0.fk with n := E.ccrsa_import_priv_n (pkg.take len) }
      (pkg.take len)).1 = 0) :
    CCRSACryptorImport E (some mem0) (some pkg) len (some slot)
      = { status := kCCSuccess,
          key := some (some
            { fk := (E.ccrsa_import_priv
                { mem0.fk with n := E.ccrsa_import_priv_n (pkg.take len) } (pkg.take len)).2,
              key_nbits := ccn_bitlen
                (E.ccrsa_import_priv
                  { mem0.fk with n := E.ccrsa_import_priv_n (pkg.take len) } (pkg.take len)).2.n
                (E.ccrsa_import_priv
                  { mem0.fk with n := E.ccrsa_import_priv_n (pkg.take len) } (pkg.take len)).2.m,
              keyType := ccRSAKeyPrivate }),
          calls := [EngineCall.ccrsa_import_priv_n, EngineCall.ccrsa_import_priv] } := by
  simp [CCRSACryptorImport, hpriv, ccMallocRSACryptor, hrc, ccRSAkeysize]

/-- Reading back the public view just stored gives the stored view. -/
theorem ccrsa_ctx_public_store (fk : ccrsa_full_ctx) (pk : ccrsa_pub_ctx) :
    ccrsa_ctx_public (ccrsa_ctx_store_public fk pk) = pk := by
  cases pk
  rfl

/-- Export of a Public key whose encoding has the given size and bytes. -/
theorem reexport_public (E : Engine) (key2 : CCRSACryptor) (out2 : List Nat) (cap2 size : Nat)
    (pkg : List Nat) (hk : key2.keyType = ccRSAKeyPublic)
    (hsz : E.ccrsa_export_pub_size (ccrsa_ctx_public key2.fk) = size)
    (hrc : (E.ccrsa_export_pub (ccrsa_ctx_public key2.fk) size out2).1 = 0)
    (hbytes : (E.ccrsa_export_pub (ccrsa_ctx_public key2.fk) size out2).2.take size
      = pkg.take size)
    (hcap : encoded_size E key2 < cap2) :
    ∃ pkg2 : List Nat,
      (CCRSACryptorExport E (some key2) (some out2) cap2).status = kCCSuccess ∧
      (CCRSACryptorExport E (some key2) (some out2) cap2).out = some pkg2 ∧
      (CCRSACryptorExport E (some key2) (some out2) cap2).outLen = size ∧
      pkg2.take size = pkg.take size := by
  subst hsz
  simp only [encoded_size, hk] at hcap
  rw [export_public_success E key2 out2 cap2 hk hcap hrc]
  exact ⟨_, rfl, rfl, rfl, hbytes⟩

/-- Export of a Private key whose encoding has the given size and bytes. -/
theorem reexport_private (E : Engine) (key2 : CCRSACryptor) (out2 : List Nat) (cap2 size : Nat)
    (pkg : List Nat) (hk : key2.keyType = ccRSAKeyPrivate)
    (hsz : E.ccrsa_export_priv_size key2.fk = size)
    (hrc : (E.ccrsa_export_priv key2.fk size out2).1 = 0)
    (hbytes : (E.ccrsa_export_priv key2.fk size out2).2.take size = pkg.take size)
    (hcap : encoded_size E key2 < cap2) :
    ∃ pkg2 : List Nat,
      (CCRSACryptorExport E (some key2) (some out2) cap2).status = kCCSuccess ∧
      (CCRSACryptorExport E (some key2) (some out2) cap2).out = some pkg2 ∧
      (CCRSACryptorExport E (some key2) (some out2) cap2).outLen = size ∧
      pkg2.take size = pkg.take size := by
  subst hsz
  simp only [encoded_size, hk] at hcap
  rw [export_private_success E key2 out2 cap2 hk (Nat.le_of_lt hcap) hrc]
  exact ⟨_, rfl, rfl, rfl, hbytes⟩

/-- Claim C3.  Assuming the engine's codec is lossless at the key, for a
Public or Private key and a buffer larger than the encoding: Export succeeds;
Import of the exported bytes (into a successfully allocated block, whatever it
held) succeeds and yields a key of the same type; and every Export of that key
into a large enough buffer succeeds with the same length and the same bytes as
the first export. -/
theorem export_import_export (E : Engine) (key mem0 : CCRSACryptor) (out : List Nat)
    (cap : Nat) (slot : CCRSACryptorRef)
    (hty : key.keyType = ccRSAKeyPublic ∨ key.keyType = ccRSAKeyPrivate)
    (hcap : encoded_size E key < cap)
    (hloss : codec_lossless_at E key) :
    ∃ (pkg : List Nat) (key2 : CCRSACryptor),
      (CCRSACryptorExport E (some key) (some out) cap).status = kCCSuccess ∧
      (CCRSACryptorExport E (some key) (some out) cap).out = some pkg ∧
      (CCRSACryptorExport E (some key) (some out) cap).outLen = encoded_size E key ∧
      (CCRSACryptorImport E (some mem0) (some pkg) (encoded_size E key) (some slot)).status
        = kCCSuccess ∧
      (CCRSACryptorImport E (some mem0) (some pkg) (encoded_size E key) (some slot)).key
        = some (some key2) ∧
      key2.keyType = key.keyType ∧
      ∀ (out2 : List Nat) (cap2 : Nat), encoded_size E key2 < cap2 →
        ∃ pkg2 : List Nat,
          (CCRSACryptorExport E (some key2) (some out2) cap2).status = kCCSuccess ∧
          (CCRSACryptorExport E (some key2) (some out2) cap2).out = some pkg2 ∧
          (CCRSACryptorExport E (some key2) (some out2) cap2).outLen = encoded_size E key ∧
          pkg2.take (encoded_size E key) = pkg.take (encoded_size E key) := by
  rcases hty with h | h
  · simp only [codec_lossless_at, h] at hloss
    simp only [encoded_size, h] at hcap
    have hsize : encoded_size E key = E.ccrsa_export_pub_size (ccrsa_ctx_public key.fk) := by
      simp only [encoded_size, h]
    rw [hsize]
    obtain ⟨h1, h2, h3, h4⟩ := hloss out
    have hr := h4 ⟨E.ccrsa_import_pub_n ((E.ccrsa_export_pub (ccrsa_ctx_public key.fk)
      (E.ccrsa_export_pub_size (ccrsa_ctx_public key.fk)) out).2.take
      (E.ccrsa_export_pub_size (ccrsa_ctx_public key.fk))), mem0.fk.m, mem0.fk.e⟩ rfl
    have hexp := export_public_success E key out cap h hcap h1
    have himp := import_public_success E mem0 _ _ slot h2 h3 hr.1
    refine ⟨_, _, by rw [hexp], by rw [hexp], by rw [hexp], by rw [himp], by rw [himp],
      h.symm, ?_⟩
    intro out2 cap2 hcap2
    have h6 := hr.2.2 out2
    exact reexport_public E _ out2 cap2 _ _ rfl
      (by simpa only [ccrsa_ctx_public_store] using hr.2.1)
      (by simpa only [ccrsa_ctx_public_store] using h6.1)
      (by simpa only [ccrsa_ctx_public_store] using h6.2) hcap2
  · simp only [codec_lossless_at, h] at hloss
    simp only [encoded_size, h] at hcap
    have hsize : encoded_size E key = E.ccrsa_export_priv_size key.fk := by
      simp only [encoded_size, h]
    rw [hsize]
    obtain ⟨h1, h3, h4⟩ := hloss out
    have hr := h4 { mem0.fk with n := E.ccrsa_import_priv_n ((E.ccrsa_export_priv key.fk
      (E.ccrsa_export_priv_size key.fk) out).2.take (E.ccrsa_export_priv_size key.fk)) } rfl
    have hexp := export_private_success E key out cap h (Nat.le_of_lt hcap) h1
    have himp := import_private_success E mem0 _ _ slot h3 hr.1
    refine ⟨_, _, by rw [hexp], by rw [hexp], by rw [hexp], by rw [himp], by rw [himp],
      h.symm, ?_⟩
    intro out2 cap2 hcap2
    have h6 := hr.2.2 out2
    exact reexport_private E _ out2 cap2 _ _ rfl hr.2.1 h6.1 h6.2 hcap2

/-- The reference engine's codec is lossless at the reference public key. -/
theorem refEngine_lossless_public : codec_lossless_at refEngine refPublicKey := by
  simp only [codec_lossless_at, refPublicKey]
  intro out
  refine ⟨?_, ?_, ?_, ?_⟩
  · simp [refEngine]
  · simp [refEngine, ref_pub_package, be2]
  · simp [refEngine, ref_pub_package, be2]
  · intro c0 _
    refine ⟨?_, ?_, ?_⟩
    · simp [refEngine, ref_pub_package, be2]
    · simp [refEngine]
    · intro out2
      have hpkg : List.take 5 (ref_pub_package (ccrsa_ctx_public refContext) ++ List.drop 5 out)
          = [48, 12, 161, 0, 17] := rfl
      simp only [refEngine, lt_irrefl, if_false, hpkg]
      have hm : pkg_field [48, 12, 161, 0, 17] 0 = 3233 := rfl
      have he : pkg_field [48, 12, 161, 0, 17] 1 = 17 := rfl
      have hlen : [48, 12, 161, 0, 17].length = 5 ∧ [48, 12, 161, 0, 17].head? = some 48 :=
        ⟨rfl, rfl⟩
      rw [hm, he, if_pos hlen]
      refine ⟨trivial, ?_⟩
      simp only [ref_pub_package, be2]
      rfl

/-- The reference engine's codec is lossless at the reference private key. -/
theorem refEngine_lossless_private : codec_lossless_at refEngine refPrivateKey := by
  simp only [codec_lossless_at, refPrivateKey]
  intro out
  refine ⟨?_, ?_, ?_⟩
  · simp [refEngine]
  · simp [refEngine, ref_priv_package, be2]
  · intro c0 _
    refine ⟨?_, ?_, ?_⟩
    · simp [refEngine, ref_priv_package, be2]
    · simp [refEngine]
    · intro out2
      have hpkg : List.take 17 (ref_priv_package refContext ++ List.drop 17 out)
          = [49, 12, 161, 0, 17, 10, 193, 0, 61, 0, 53, 0, 53, 0, 49, 0, 38] := rfl
      simp only [refEngine, lt_irrefl, if_false, hpkg]
      have h0 : pkg_field [49, 12, 161, 0, 17, 10, 193, 0, 61, 0, 53, 0, 53, 0, 49, 0, 38] 0
          = 3233 := rfl
      have h1 : pkg_field [49, 12, 161, 0, 17, 10, 193, 0, 61, 0, 53, 0, 53, 0, 49, 0, 38] 1
          = 17 := rfl
      have h2 : pkg_field [49, 12, 161, 0, 17, 10, 193, 0, 61, 0, 53, 0, 53, 0, 49, 0, 38] 2
          = 2753 := rfl
      have h3 : pkg_field [49, 12, 161, 0, 17, 10, 193, 0, 61, 0, 53, 0, 53, 0, 49, 0, 38] 3
          = 61 := rfl
      have h4 : pkg_field [49, 12, 161, 0, 17, 10, 193, 0, 61, 0, 53, 0, 53, 0, 49, 0, 38] 4
          = 53 := rfl
      have h5 : pkg_field [49, 12, 161, 0, 17, 10, 193, 0, 61, 0, 53, 0, 53, 0, 49, 0, 38] 5
          = 53 := rfl
      have h6 : pkg_field [49, 12, 161, 0, 17, 10, 193, 0, 61, 0, 53, 0, 53, 0, 49, 0, 38] 6
          = 49 := rfl
      have h7 : pkg_field [49, 12, 161, 0, 17, 10, 193, 0, 61, 0, 53, 0, 53, 0, 49, 0, 38] 7
          = 38 := rfl
      have hlen : [49, 12, 161, 0, 17, 10, 193, 0, 61, 0, 53, 0, 53, 0, 49, 0, 38].length = 17 ∧
          [49, 12, 161, 0, 17, 10, 193, 0, 61, 0, 53, 0, 53, 0, 49, 0, 38].head? = some 49 :=
        ⟨rfl, rfl⟩
      rw [h0, h1, h2, h3, h4, h5, h6, h7, if_pos hlen]
      refine ⟨trivial, ?_⟩
      simp only [ref_priv_package, be2]
      rfl

/-- Witness for C3: the reference public key and the reference private key,
each exported into a buffer larger than its encoding, imported into a blank
block and exported again. -/
theorem export_import_export_witness :
    codec_lossless_at refEngine refPublicKey ∧
    encoded_size refEngine refPublicKey < 8 ∧
    (∃ (pkg : List Nat) (key2 : CCRSACryptor),
      (CCRSACryptorExport refEngine (some refPublicKey) (some [9, 9, 9, 9, 9, 9, 9, 9]) 8).status
        = kCCSuccess ∧
      (CCRSACryptorExport refEngine (some refPublicKey) (some [9, 9, 9, 9, 9, 9, 9, 9]) 8).out
        = some pkg ∧
      (CCRSACryptorExport refEngine (some refPublicKey) (some [9, 9, 9, 9, 9, 9, 9, 9]) 8).outLen
        = encoded_size refEngine refPublicKey ∧
      (CCRSACryptorImport refEngine (some blankCryptor) (some pkg)
        (encoded_size refEngine refPublicKey) (some none)).status = kCCSuccess ∧
      (CCRSACryptorImport refEngine (some blankCryptor) (some pkg)
        (encoded_size refEngine refPublicKey) (some none)).key = some (some key2) ∧
      key2.keyType = refPublicKey.keyType ∧
      ∀ (out2 : List Nat) (cap2 : Nat), encoded_size refEngine key2 < cap2 →
        ∃ pkg2 : List Nat,
          (CCRSACryptorExport refEngine (some key2) (some out2) cap2).status = kCCSuccess ∧
          (CCRSACryptorExport refEngine (some key2) (some out2) cap2).out = some pkg2 ∧
          (CCRSACryptorExport refEngine (some key2) (some out2) cap2).outLen
            = encoded_size refEngine refPublicKey ∧
          pkg2.take (encoded_size refEngine refPublicKey)
            = pkg.take (encoded_size refEngine refPublicKey)) ∧
    codec_lossless_at refEngine refPrivateKey ∧
    encoded_size refEngine refPrivateKey < 18 ∧
    (∃ (pkg : List Nat) (key2 : CCRSACryptor),
      (CCRSACryptorExport refEngine (some refPrivateKey) (some (List.replicate 18 9)) 18).status
        = kCCSuccess ∧
      (CCRSACryptorExport refEngine (some refPrivateKey) (some (List.replicate 18 9)) 18).out
        = some pkg ∧
      (CCRSACryptorExport refEngine (some refPrivateKey) (some (List.replicate 18 9)) 18).outLen
        = encoded_size refEngine refPrivateKey ∧
      (CCRSACryptorImport refEngine (some blankCryptor) (some pkg)
        (encoded_size refEngine refPrivateKey) (some none)).status = kCCSuccess ∧
      (CCRSACryptorImport refEngine (some blankCryptor) (some pkg)
        (encoded_size refEngine refPrivateKey) (some none)).key = some (some key2) ∧
      key2.keyType = refPrivateKey.keyType ∧
      ∀ (out2 : List Nat) (cap2 : Nat), encoded_size refEngine key2 < cap2 →
        ∃ pkg2 : List Nat,
          (CCRSACryptorExport refEngine (some key2) (some out2) cap2).status = kCCSuccess ∧
          (CCRSACryptorExport refEngine (some key2) (some out2) cap2).out = some pkg2 ∧
          (CCRSACryptorExport refEngine (some key2) (some out2) cap2).outLen
            = encoded_size refEngine refPrivateKey ∧
          pkg2.take (encoded_size refEngine refPrivateKey)
            = pkg.take (encoded_size refEngine refPrivateKey)) :=
  ⟨refEngine_lossless_public, by decide,
    export_import_export refEngine refPublicKey blankCryptor [9, 9, 9, 9, 9, 9, 9, 9] 8 none
      (Or.inl rfl) (by decide) refEngine_lossless_public,
    refEngine_lossless_private, by decide,
    export_import_export refEngine refPrivateKey blankCryptor (List.replicate 18 9) 18 none
      (Or.inr rfl) (by decide) refEngine_lossless_private⟩

/-! ## Properties of the import path -/

/-- Claim C4.  For a non-null package (and a valid output handle): the
private probe is the first engine call; the public probe is made exactly when
the private probe rejects the bytes; when neither probe recognises the bytes
the status is `kCCDecodeError`; when the full parse chosen by the probes fails
the status is `kCCDecodeError`; and on `kCCSuccess` the key's type is that of
the probe that recognised the package, and its `key_nbits` is the bit length
of the modulus stored in its context. -/
theorem import_probes_and_key_size (E : Engine) (mem : Option CCRSACryptor) (pkg : List Nat)
    (len : Nat) (slot : CCRSACryptorRef) :
    (CCRSACryptorImport E mem (some pkg) len (some slot)).calls.head?
      = some EngineCall.ccrsa_import_priv_n ∧
    (E.ccrsa_import_priv_n (pkg.take len) ≠ 0 →
      EngineCall.ccrsa_import_pub_n ∉ (CCRSACryptorImport E mem (some pkg) len (some slot)).calls ∧
      EngineCall.ccrsa_import_pub ∉ (CCRSACryptorImport E mem (some pkg) len (some slot)).calls) ∧
    (E.ccrsa_import_priv_n (pkg.take len) = 0 →
      (CCRSACryptorImport E mem (some pkg) len (some slot)).calls.take 2
        = [EngineCall.ccrsa_import_priv_n, EngineCall.ccrsa_import_pub_n] ∧
      EngineCall.ccrsa_import_priv ∉ (CCRSACryptorImport E mem (some pkg) len (some slot)).calls) ∧
    (E.ccrsa_import_priv_n (pkg.take len) = 0 → E.ccrsa_import_pub_n (pkg.take len) = 0 →
      (CCRSACryptorImport E mem (some pkg) len (some slot)).status = kCCDecodeError) ∧
    (∀ c : CCRSACryptor, mem = some c → E.ccrsa_import_priv_n (pkg.take len) ≠ 0 →
      (E.ccrsa_import_priv { c.fk with n := E.ccrsa_import_priv_n (pkg.take len) }
        (pkg.take len)).1 ≠ 0 →
      (CCRSACryptorImport E mem (some pkg) len (some slot)).status = kCCDecodeError) ∧
    (∀ c : CCRSACryptor, mem = some c → E.ccrsa_import_priv_n (pkg.take len) = 0 →
      E.ccrsa_import_pub_n (pkg.take len) ≠ 0 →
      (E.ccrsa_import_pub
        { n := E.ccrsa_import_pub_n (pkg.take len), m := c.fk.m, e := c.fk.e }
        (pkg.take len)).1 ≠ 0 →
      (CCRSACryptorImport E mem (some pkg) len (some slot)).status = kCCDecodeError) ∧
    ((CCRSACryptorImport E mem (some pkg) len (some slot)).status = kCCSuccess →
      ∃ k : CCRSACryptor,
        (CCRSACryptorImport E mem (some pkg) len (some slot)).key = some (some k) ∧
        k.keyType = (if E.ccrsa_import_priv_n (pkg.take len) ≠ 0 then ccRSAKeyPrivate
          else ccRSAKeyPublic) ∧
        k.key_nbits = ccn_bitlen k.fk.n k.fk.m) := by
  refine ⟨?_, ?_, ?_, ?_, ?_, ?_, ?_⟩
  · simp only [CCRSACryptorImport]
    split_ifs <;> (try split) <;> (try split_ifs) <;> rfl
  · intro h
    cases mem <;> simp only [CCRSACryptorImport, ccMallocRSACryptor] <;> split_ifs <;> simp
  · intro h
    cases mem <;> simp only [CCRSACryptorImport, ccMallocRSACryptor] <;> split_ifs <;>
      simp_all
  · intro h1 h2
    simp [CCRSACryptorImport, h1, h2]
  · intro c hc h1 h2
    subst hc
    simp [CCRSACryptorImport, h1, h2, ccMallocRSACryptor]
  · intro c hc h1 h2 h3
    subst hc
    simp [CCRSACryptorImport, h1, h2, h3, ccMallocRSACryptor, ccrsa_ctx_public]
  · intro hs
    simp only [CCRSACryptorImport] at hs ⊢
    cases mem with
    | none =>
      simp only [ccMallocRSACryptor] at hs
      split_ifs at hs
    | some c =>
      simp only [ccMallocRSACryptor] at hs ⊢
      split_ifs at hs ⊢ <;> first
        | exact absurd hs (by decide)
        | exact ⟨_, rfl, rfl, rfl⟩

/-- Witness for C4: the reference engine imports the five-byte public package
of the textbook key into a blank block; the key comes out Public with
`key_nbits` 12, the bit length of the modulus 3233. -/
theorem import_probes_and_key_size_witness :
    (CCRSACryptorImport refEngine (some blankCryptor) (some [48, 12, 161, 0, 17]) 5
      (some none)).status = kCCSuccess ∧
    (∃ k : CCRSACryptor,
      (CCRSACryptorImport refEngine (some blankCryptor) (some [48, 12, 161, 0, 17]) 5
        (some none)).key = some (some k) ∧
      k.keyType = (if refEngine.ccrsa_import_priv_n (List.take 5 [48, 12, 161, 0, 17]) ≠ 0
        then ccRSAKeyPrivate else ccRSAKeyPublic) ∧
      k.key_nbits = ccn_bitlen k.fk.n k.fk.m) ∧
    (CCRSACryptorImport refEngine (some blankCryptor) (some [48, 12, 161, 0, 17]) 5
      (some none)).key
      = some (some { fk := { blankCryptor.fk with n := 1, m := 3233, e := 17 },
                     key_nbits := 12, keyType := ccRSAKeyPublic }) :=
  ⟨by decide,
    (import_probes_and_key_size refEngine (some blankCryptor) [48, 12, 161, 0, 17] 5
      none).2.2.2.2.2.2 (by decide),
    by decide⟩

/-! ## Properties of construction from key material -/

/-- Folding big-endian bytes from an accumulator. -/
theorem be_fold_eq (l : List Nat) (acc : Nat) :
    l.foldl (fun a b => a * 256 + b % 256) acc = acc * 256 ^ l.length + be_value l := by
  induction l generalizing acc with
  | nil => simp [be_value]
  | cons x xs ih =>
    simp only [List.foldl_cons, List.length_cons, be_value]
    rw [ih, ih (0 * 256 + x % 256)]
    ring

/-- A big-endian byte string of `k` bytes is a number below `256 ^ k`. -/
theorem be_value_lt (l : List Nat) : be_value l < 256 ^ l.length := by
  induction l using List.reverseRecOn with
  | nil => simp [be_value]
  | append_singleton xs x ih =>
    have hx : x % 256 < 256 := Nat.mod_lt _ (by norm_num)
    simp only [be_value, List.foldl_append, List.foldl_cons, List.foldl_nil,
      List.length_append, List.length_singleton] at ih ⊢
    rw [pow_succ]
    nlinarith

/-- A byte string that `ccn_read_uint` accepts for `n` units is read as the
number it denotes, and that number fits the `n` units. -/
theorem ccn_read_uint_ok (n r data_size : Nat) (data : List Nat)
    (h : (ccn_read_uint n r data_size data).1 = 0) :
    (ccn_read_uint n r data_size data).2 = be_value (data.take data_size) ∧
    ccn_value n (be_value (data.take data_size)) = be_value (data.take data_size) := by
  unfold ccn_read_uint at h ⊢
  split_ifs at h ⊢ with hgt
  · simp at h
  · refine ⟨rfl, ?_⟩
    unfold ccn_value
    apply Nat.mod_eq_of_lt
    have h1 := be_value_lt (data.take data_size)
    have h2 : (data.take data_size).length ≤ 8 * n := by
      simp only [ccn_sizeof_n, not_lt] at hgt
      exact le_trans (List.length_take_le _ _) hgt
    calc be_value (data.take data_size) < 256 ^ (data.take data_size).length := h1
      _ ≤ 256 ^ (8 * n) := Nat.pow_le_pow_right (by norm_num) h2
      _ = 2 ^ (64 * n) := by
        rw [show (256 : Nat) = 2 ^ 8 by norm_num, ← pow_mul]
        congr 1
        ring

/-- Two factors read by `ccn_read_uint` with `p ≤ q` do not compare as
greater. -/
theorem ccn_cmpn_not_pos (np nq r1 r2 pLength qLength : Nat) (p q : List Nat)
    (hp : (ccn_read_uint np r1 pLength p).1 = 0)
    (hq : (ccn_read_uint nq r2 qLength q).1 = 0)
    (hle : be_value (p.take pLength) ≤ be_value (q.take qLength)) :
    ¬ (ccn_cmpn np (ccn_read_uint np r1 pLength p).2 nq (ccn_read_uint nq r2 qLength q).2 > 0) := by
  obtain ⟨hp2, hp3⟩ := ccn_read_uint_ok np r1 pLength p hp
  obtain ⟨hq2, hq3⟩ := ccn_read_uint_ok nq r2 qLength q hq
  rw [hp2, hq2]
  unfold ccn_cmpn
  rw [hp3, hq3]
  split_ifs with h1 h2
  · omega
  · decide
  · decide

/-- Claim C5.  `CCRSACryptorCreateFromData` for a Private key, with factors of
different byte lengths or with big-endian values `p ≤ q`, returns
`kCCParamError`, leaves the output handle as it was (no key is stored, the
factors are not swapped) and calls no engine routine, in particular not the
CRT derivation primitive. -/
theorem create_private_rejects_unordered (E : Engine) (mem : Option CCRSACryptor)
    (modulus : Option (List Nat)) (modulusLength : Nat)
    (publicExponent : Option (List Nat)) (publicExponentLength : Nat)
    (p q : List Nat) (pLength qLength : Nat) (ref : Option CCRSACryptorRef)
    (h : pLength ≠ qLength ∨ be_value (p.take pLength) ≤ be_value (q.take qLength)) :
    (CCRSACryptorCreateFromData E mem ccRSAKeyPrivate modulus modulusLength
      publicExponent publicExponentLength (some p) pLength (some q) qLength ref).status
      = kCCParamError ∧
    (CCRSACryptorCreateFromData E mem ccRSAKeyPrivate modulus modulusLength
      publicExponent publicExponentLength (some p) pLength (some q) qLength ref).ref = ref ∧
    (CCRSACryptorCreateFromData E mem ccRSAKeyPrivate modulus modulusLength
      publicExponent publicExponentLength (some p) pLength (some q) qLength ref).calls = [] ∧
    EngineCall.ccrsa_crt_makekey ∉ (CCRSACryptorCreateFromData E mem ccRSAKeyPrivate modulus
      modulusLength publicExponent publicExponentLength (some p) pLength (some q) qLength
      ref).calls := by
  have key : (create_priv E mem publicExponent publicExponentLength (some p) pLength (some q)
      qLength ref) = ⟨kCCParamError, ref, []⟩ := by
    cases publicExponent with
    | none => rfl
    | some e =>
      cases ref with
      | none => rfl
      | some ref0 =>
        cases hm : malloc_rsa_cryptor mem ((pLength + qLength) % SIZE_T_RANGE) with
        | none =>
          simp [create_priv, hm]
        | some rsaKey =>
          simp [create_priv, hm]
          intro _ _ _ hlen _ _ _ hp hq hc
          have hle : be_value (p.take pLength) ≤ be_value (q.take qLength) := by
            rcases h with h | h
            · exact absurd hlen h
            · exact h
          exact absurd hc (ccn_cmpn_not_pos _ _ _ _ _ _ _ _ hp hq hle)
  simp [CCRSACryptorCreateFromData, key]

/-- Witness for C5: on the reference engine, the textbook factors in the wrong
order (`p = 53`, `q = 61`) are rejected and the handle keeps its content. -/
theorem create_private_rejects_unordered_witness :
    ((1 : Nat) ≠ 1 ∨ be_value (List.take 1 [53]) ≤ be_value (List.take 1 [61])) ∧
    (CCRSACryptorCreateFromData refEngine (some blankCryptor) ccRSAKeyPrivate none 0
      (some [17]) 1 (some [53]) 1 (some [61]) 1 (some none)).status = kCCParamError ∧
    (CCRSACryptorCreateFromData refEngine (some blankCryptor) ccRSAKeyPrivate none 0
      (some [17]) 1 (some [53]) 1 (some [61]) 1 (some none)).ref = some none ∧
    (CCRSACryptorCreateFromData refEngine (some blankCryptor) ccRSAKeyPrivate none 0
      (some [17]) 1 (some [61]) 1 (some [53]) 1 (some none)).status = kCCSuccess :=
  have h := create_private_rejects_unordered refEngine (some blankCryptor) none 0
    (some [17]) 1 [53] [61] 1 1 (some none) (Or.inr (by decide))
  ⟨Or.inr (by decide), h.1, h.2.1, by decide⟩

/-- Counterexample to C6 as stated.  On the reference engine, `e = 3`,
`p = 7`, `q = 5` pass every precondition check (all pointers valid, lengths
equal and nonzero, `p > q`, the exponent parses), the CRT derivation primitive
is called and reports failure (3 divides `(p - 1) * (q - 1) = 24`), and the
status is `kCCParamError`, not `kCCDecodeError`. -/
theorem create_private_derivation_failure_not_decode_error :
    be_value (List.take 1 [5]) < be_value (List.take 1 [7]) ∧
    (ccn_read_uint (ccn_nof_size ((1 + 1) % SIZE_T_RANGE)) blankCryptor.fk.e 1 [3]).1 = 0 ∧
    (refEngine.ccrsa_crt_makekey
      { blankCryptor.fk with
        n := ccn_nof_size ((1 + 1) % SIZE_T_RANGE),
        zp_n := ccn_nof_size 1, zp_prime := be_value (List.take 1 [7]),
        zq_n := ccn_nof_size 1, zq_prime := be_value (List.take 1 [5]),
        e := be_value (List.take 1 [3]) }).1 ≠ 0 ∧
    (CCRSACryptorCreateFromData refEngine (some blankCryptor) ccRSAKeyPrivate none 0
      (some [3]) 1 (some [7]) 1 (some [5]) 1 (some none)).calls
      = [EngineCall.ccrsa_crt_makekey] ∧
    (CCRSACryptorCreateFromData refEngine (some blankCryptor) ccRSAKeyPrivate none 0
      (some [3]) 1 (some [7]) 1 (some [5]) 1 (some none)).status = kCCParamError ∧
    (CCRSACryptorCreateFromData refEngine (some blankCryptor) ccRSAKeyPrivate none 0
      (some [3]) 1 (some [7]) 1 (some [5]) 1 (some none)).status ≠ kCCDecodeError := by
  decide

/-- Two factors read by `ccn_read_uint` with `p > q` compare as greater. -/
theorem ccn_cmpn_pos (np nq r1 r2 pLength qLength : Nat) (p q : List Nat)
    (hp : (ccn_read_uint np r1 pLength p).1 = 0)
    (hq : (ccn_read_uint nq r2 qLength q).1 = 0)
    (hlt : be_value (q.take qLength) < be_value (p.take pLength)) :
    ccn_cmpn np (ccn_read_uint np r1 pLength p).2 nq (ccn_read_uint nq r2 qLength q).2 > 0 := by
  obtain ⟨hp2, hp3⟩ := ccn_read_uint_ok np r1 pLength p hp
  obtain ⟨hq2, hq3⟩ := ccn_read_uint_ok nq r2 qLength q hq
  rw [hp2, hq2]
  unfold ccn_cmpn
  rw [hp3, hq3, if_pos hlt]
  decide

/-- A byte string of `len` bytes fits `ccn_nof_size len` units, when `len + 7`
does not wrap. -/
theorem ccn_read_uint_fits (r len : Nat) (data : List Nat) (h : len + 7 < SIZE_T_RANGE) :
    (ccn_read_uint (ccn_nof_size len) r len data).1 = 0 := by
  unfold ccn_read_uint
  have : ¬ len > ccn_sizeof_n (ccn_nof_size len) := by
    simp only [ccn_sizeof_n, ccn_nof_size, SIZE_T_RANGE] at h ⊢
    omega
  rw [if_neg this]

/-- Claim C6, amended.  A Private `CCRSACryptorCreateFromData` call that
passes every precondition check (valid pointers, nonzero equal lengths that do
not wrap, `p > q`, successful allocation, the exponent parses) reaches the CRT
derivation primitive; when that primitive reports failure the status is
`kCCParamError` and the output handle is left as it was. -/
theorem create_private_derivation_failure (E : Engine) (mem0 : CCRSACryptor)
    (modulus : Option (List Nat)) (modulusLength : Nat)
    (e p q : List Nat) (eLength pLength qLength : Nat) (ref0 : CCRSACryptorRef)
    (he : eLength ≠ 0) (hp : pLength ≠ 0) (hlen : pLength = qLength)
    (hsize : pLength + qLength + 7 < SIZE_T_RANGE)
    (hord : be_value (q.take qLength) < be_value (p.take pLength))
    (hparse : (ccn_read_uint (ccn_nof_size ((pLength + qLength) % SIZE_T_RANGE))
      mem0.fk.e eLength e).1 = 0)
    (hfail : (E.ccrsa_crt_makekey
      { mem0.fk with
        n := ccn_nof_size ((pLength + qLength) % SIZE_T_RANGE),
        zp_n := ccn_nof_size pLength, zp_prime := be_value (p.take pLength),
        zq_n := ccn_nof_size qLength, zq_prime := be_value (q.take qLength),
        e := be_value (e.take eLength) }).1 ≠ 0) :
    CCRSACryptorCreateFromData E (some mem0) ccRSAKeyPrivate modulus modulusLength
      (some e) eLength (some p) pLength (some q) qLength (some ref0)
      = { status := kCCParamError, ref := some ref0,
          calls := [EngineCall.ccrsa_crt_makekey] } := by
  subst hlen
  have hm0 : (pLength + pLength) % SIZE_T_RANGE ≠ 0 := by
    simp only [SIZE_T_RANGE] at hsize ⊢
    omega
  have hn : ccn_nof_size ((pLength + pLength) % SIZE_T_RANGE) ≠ 0 := by
    simp only [ccn_nof_size, SIZE_T_RANGE] at hsize ⊢
    omega
  have hnp : ccn_nof_size pLength ≠ 0 := by
    simp only [ccn_nof_size, SIZE_T_RANGE] at hsize ⊢
    omega
  have hrp := ccn_read_uint_fits mem0.fk.zp_prime pLength p (by omega)
  have hrq := ccn_read_uint_fits mem0.fk.zq_prime pLength q (by omega)
  have hcmp := ccn_cmpn_pos _ _ _ _ _ _ _ _ hrp hrq hord
  have hfail2 : (E.ccrsa_crt_makekey
      { mem0.fk with
        n := ccn_nof_size ((pLength + pLength) % SIZE_T_RANGE),
        zp_n := ccn_nof_size pLength,
        zp_prime := (ccn_read_uint (ccn_nof_size pLength) mem0.fk.zp_prime pLength p).2,
        zq_n := ccn_nof_size pLength,
        zq_prime := (ccn_read_uint (ccn_nof_size pLength) mem0.fk.zq_prime pLength q).2,
        e := (ccn_read_uint (ccn_nof_size ((pLength + pLength) % SIZE_T_RANGE))
          mem0.fk.e eLength e).2 }).1 ≠ 0 := by
    rw [(ccn_read_uint_ok _ _ _ _ hrp).1, (ccn_read_uint_ok _ _ _ _ hrq).1,
      (ccn_read_uint_ok _ _ _ _ hparse).1]
    exact hfail
  simp [CCRSACryptorCreateFromData, create_priv, malloc_rsa_cryptor, ccMallocRSACryptor,
    he, hp, hm0, hn, hnp, hrp, hrq, hcmp, hparse, hfail2]

/-- Witness for C6 (amended): the call of the counterexample, on the reference
engine. -/
theorem create_private_derivation_failure_witness :
    be_value (List.take 1 [5]) < be_value (List.take 1 [7]) ∧
    CCRSACryptorCreateFromData refEngine (some blankCryptor) ccRSAKeyPrivate none 0
      (some [3]) 1 (some [7]) 1 (some [5]) 1 (some none)
      = { status := kCCParamError, ref := some none,
          calls := [EngineCall.ccrsa_crt_makekey] } :=
  ⟨by decide,
    create_private_derivation_failure refEngine blankCryptor none 0 [3] [7] [5] 1 1 1 none
      (by decide) (by decide) rfl (by decide) (by decide) (by decide) (by decide)⟩

/-- Claim C7 (the code departs from it).  `create_pub` has no size guard: for
a modulus of any nonzero byte length, also one above 512 bytes, the status of
a Public `CCRSACryptorCreateFromData` call is `kCCSuccess` as soon as the
engine's `ccrsa_make_pub` returns 0, and the stored `key_nbits` is the bit
length of the modulus the engine stored, read on `ccn_nof_size(modulusLength)`
units; nothing compares it with `kCCMaximumRSAKeyBits`. -/
theorem create_public_no_size_guard (E : Engine) (mem0 : CCRSACryptor)
    (modulus e : List Nat) (modulusLength eLength : Nat)
    (p q : Option (List Nat)) (pLength qLength : Nat) (ref0 : CCRSACryptorRef)
    (hm : modulusLength ≠ 0) (he : eLength ≠ 0) (hsz : modulusLength + 7 < SIZE_T_RANGE)
    (hrc : (E.ccrsa_make_pub
      { n := ccn_nof_size modulusLength, m := mem0.fk.m, e := mem0.fk.e }
      (e.take eLength) (modulus.take modulusLength)).1 = 0) :
    CCRSACryptorCreateFromData E (some mem0) ccRSAKeyPublic (some modulus) modulusLength
        (some e) eLength p pLength q qLength (some ref0)
      = { status := kCCSuccess,
          ref := some (some
            { fk := ccrsa_ctx_store_public mem0.fk (E.ccrsa_make_pub
                { n := ccn_nof_size modulusLength, m := mem0.fk.m, e := mem0.fk.e }
                (e.take eLength) (modulus.take modulusLength)).2,
              key_nbits := ccn_bitlen (ccn_nof_size modulusLength) (E.ccrsa_make_pub
                { n := ccn_nof_size modulusLength, m := mem0.fk.m, e := mem0.fk.e }
                (e.take eLength) (modulus.take modulusLength)).2.m,
              keyType := ccRSAKeyPublic }),
          calls := [EngineCall.ccrsa_make_pub] } := by
  have hn : ccn_nof_size modulusLength ≠ 0 := by
    simp only [ccn_nof_size, SIZE_T_RANGE] at hsz ⊢
    omega
  simp [CCRSACryptorCreateFromData, create_pub, malloc_rsa_cryptor, ccMallocRSACryptor,
    hm, he, hn, ccrsa_ctx_public, ccrsa_ctx_store_public, hrc]

set_option maxRecDepth 10000 in
/-- Witness for C7: on the reference engine, a Public key is created from a
513-byte modulus (the byte 1 followed by 512 zero bytes, the number
`2 ^ 4096`) and the exponent 65537; the status is `kCCSuccess` and the stored
`key_nbits` is 4097, above `kCCMaximumRSAKeyBits`. -/
theorem create_public_oversized_modulus :
    (CCRSACryptorCreateFromData refEngine (some blankCryptor) ccRSAKeyPublic
      (some (1 :: List.replicate 512 0)) 513 (some [1, 0, 1]) 3 none 0 none 0
      (some none)).status = kCCSuccess ∧
    ((CCRSACryptorCreateFromData refEngine (some blankCryptor) ccRSAKeyPublic
      (some (1 :: List.replicate 512 0)) 513 (some [1, 0, 1]) 3 none 0 none 0
      (some none)).ref.bind id).map (fun k => (k.keyType, k.key_nbits))
      = some (ccRSAKeyPublic, 4097) ∧
    kCCMaximumRSAKeyBits < 4097 :=
  ⟨by rw [create_public_no_size_guard refEngine blankCryptor (1 :: List.replicate 512 0)
      [1, 0, 1] 513 3 none none 0 0 none (by decide) (by decide) (by decide) (by decide)],
    by decide, by decide⟩

/-! ## Properties of encryption and decryption -/

/-- Claim C8 (the code departs from it).  `CCRSACryptorDecrypt` with valid
pointers and a padding that is neither PKCS1 nor OAEP (the PSS selector or any
other value) returns `kCCSuccess`, makes no engine call and leaves the
plaintext buffer and length as they were; `CCRSACryptorEncrypt` returns
`kCCParamError` for the same paddings. -/
theorem decrypt_unsupported_padding (E : Engine) (key : CCRSACryptor) (raw : Nat)
    (cipherText plainText : List Nat) (cipherTextLen plainTextLen : Nat)
    (tagData : Option (List Nat)) (tagDataLen : Nat) (digestType : CCDigestAlgorithm) :
    CCRSACryptorDecrypt E (some key) ccRSAPSSPadding (some cipherText) cipherTextLen
        (some plainText) (some plainTextLen) tagData tagDataLen digestType
      = { status := kCCSuccess, out := some plainText, outLen := some plainTextLen,
          calls := [] } ∧
    CCRSACryptorDecrypt E (some key) (CCAsymmetricPadding.other raw) (some cipherText)
        cipherTextLen (some plainText) (some plainTextLen) tagData tagDataLen digestType
      = { status := kCCSuccess, out := some plainText, outLen := some plainTextLen,
          calls := [] } ∧
    (CCRSACryptorEncrypt E (some key) ccRSAPSSPadding (some plainText) plainTextLen
        (some cipherText) (some cipherTextLen) tagData tagDataLen digestType).status
      = kCCParamError ∧
    (CCRSACryptorEncrypt E (some key) (CCAsymmetricPadding.other raw) (some plainText)
        plainTextLen (some cipherText) (some cipherTextLen) tagData tagDataLen
        digestType).status
      = kCCParamError := by
  refine ⟨rfl, rfl, rfl, rfl⟩

/-! ## Properties of signing and verification -/

/-- The validator returns the registry's descriptor when every check passes. -/
theorem validate_ok (E : Engine) (key : CCRSACryptor) (padding : CCAsymmetricPadding)
    (hash data : List Nat) (digestType : CCDigestAlgorithm) (di : ccdigest_info)
    (hd : digestType = kCCDigestSHA1 ∨ digestType = kCCDigestSHA224 ∨
      digestType = kCCDigestSHA256 ∨ digestType = kCCDigestSHA384 ∨
      digestType = kCCDigestSHA512)
    (hp : padding = ccPKCS1Padding ∨ padding = ccRSAPSSPadding)
    (hdi : E.CCDigestGetDigestInfo digestType = some di) :
    validate_sign_verify_params E (some key) padding (some hash) digestType (some data) false
      = some di := by
  unfold validate_sign_verify_params
  rcases hd with h | h | h | h | h <;> rcases hp with h2 | h2 <;> subst h <;> subst h2 <;>
    simp [hdi]

/-- The validator returns null when a check fails. -/
theorem validate_reject (E : Engine) (key : CCRSACryptorRef) (padding : CCAsymmetricPadding)
    (hash data : Option (List Nat)) (digestType : CCDigestAlgorithm) (DataLen_null : Bool)
    (h : (digestType ≠ kCCDigestSHA1 ∧ digestType ≠ kCCDigestSHA224 ∧
        digestType ≠ kCCDigestSHA256 ∧ digestType ≠ kCCDigestSHA384 ∧
        digestType ≠ kCCDigestSHA512) ∨
      (padding ≠ ccPKCS1Padding ∧ padding ≠ ccRSAPSSPadding) ∨
      key = none ∨ hash = none ∨ data = none) :
    validate_sign_verify_params E key padding hash digestType data DataLen_null = none := by
  simp only [validate_sign_verify_params]
  split_ifs <;> first
    | rfl
    | (exfalso; tauto)

/-- Claim C9.  For a Verify call whose arguments pass validation (valid key,
hash and signature pointers, allow-listed digest and padding, a descriptor in
the registry), the status is `kCCSuccess` exactly when the verification
routine selected by the padding returns 0 and sets the validity flag; in every
other case it is `kCCDecodeError`. -/
theorem verify_status (E : Engine) (key : CCRSACryptor) (padding : CCAsymmetricPadding)
    (hash : List Nat) (hashLen : Nat) (digestType : CCDigestAlgorithm) (saltLen : Nat)
    (signedData : List Nat) (signedDataLen : Nat) (di : ccdigest_info)
    (hd : digestType = kCCDigestSHA1 ∨ digestType = kCCDigestSHA224 ∨
      digestType = kCCDigestSHA256 ∨ digestType = kCCDigestSHA384 ∨
      digestType = kCCDigestSHA512)
    (hp : padding = ccPKCS1Padding ∨ padding = ccRSAPSSPadding)
    (hdi : E.CCDigestGetDigestInfo digestType = some di) :
    (padding = ccPKCS1Padding →
      ((CCRSACryptorVerify E (some key) padding (some hash) hashLen digestType saltLen
          (some signedData) signedDataLen).status = kCCSuccess ↔
        (E.ccrsa_verify_pkcs1v15 (ccrsa_ctx_public key.fk) di.oid (hash.take hashLen)
          (signedData.take signedDataLen)).1 = 0 ∧
        (E.ccrsa_verify_pkcs1v15 (ccrsa_ctx_public key.fk) di.oid (hash.take hashLen)
          (signedData.take signedDataLen)).2 = true)) ∧
    (padding = ccRSAPSSPadding →
      ((CCRSACryptorVerify E (some key) padding (some hash) hashLen digestType saltLen
          (some signedData) signedDataLen).status = kCCSuccess ↔
        (E.ccrsa_verify_pss (ccrsa_ctx_public key.fk) di (hash.take hashLen)
          (signedData.take signedDataLen) saltLen).1 = 0 ∧
        (E.ccrsa_verify_pss (ccrsa_ctx_public key.fk) di (hash.take hashLen)
          (signedData.take signedDataLen) saltLen).2 = true)) ∧
    ((CCRSACryptorVerify E (some key) padding (some hash) hashLen digestType saltLen
        (some signedData) signedDataLen).status = kCCSuccess ∨
      (CCRSACryptorVerify E (some key) padding (some hash) hashLen digestType saltLen
        (some signedData) signedDataLen).status = kCCDecodeError) := by
  have hv := validate_ok E key padding hash signedData digestType di hd hp hdi
  unfold CCRSACryptorVerify
  rw [hv]
  rcases hp with h | h <;> subst h
  · simp only [if_true, true_implies]
    refine ⟨?_, ?_, ?_⟩
    · split_ifs with h1
      · simp only [false_iff, reduceCtorEq]
        rcases h1 with h1 | h1
        · simp [h1]
        · simp [h1]
      · simp only [true_iff]
        push_neg at h1
        exact ⟨h1.2, by simpa using h1.1⟩
    · intro h
      exact absurd h (by decide)
    · split_ifs <;> simp
  · simp only [reduceCtorEq, if_false, true_implies]
    refine ⟨?_, ?_, ?_⟩
    · intro h
      exact absurd h (by decide)
    · split_ifs with h1
      · simp only [false_iff, reduceCtorEq]
        rcases h1 with h1 | h1
        · simp [h1]
        · simp [h1]
      · simp only [true_iff]
        push_neg at h1
        exact ⟨h1.2, by simpa using h1.1⟩
    · split_ifs <;> simp

/-- Witness for C9: on the reference engine the textbook signature `[6, 37]`
of the digest `[1, 2]` verifies with status `kCCSuccess`, obtained from the
routine returning 0 with the validity flag set; the signature `[1, 1]` (the
routine returns 0 with the flag unset) and the one-byte signature `[1]` (the
routine returns a nonzero code) both give `kCCDecodeError`. -/
theorem verify_status_witness :
    refEngine.CCDigestGetDigestInfo kCCDigestSHA256
      = some ⟨[96, 134, 72, 1, 101, 3, 4, 2, 1], 32, 64⟩ ∧
    (CCRSACryptorVerify refEngine (some refPublicKey) ccPKCS1Padding (some [1, 2]) 2
      kCCDigestSHA256 0 (some [6, 37]) 2).status = kCCSuccess ∧
    (CCRSACryptorVerify refEngine (some refPublicKey) ccPKCS1Padding (some [1, 2]) 2
      kCCDigestSHA256 0 (some [1, 1]) 2).status = kCCDecodeError ∧
    (CCRSACryptorVerify refEngine (some refPublicKey) ccPKCS1Padding (some [1, 2]) 2
      kCCDigestSHA256 0 (some [1]) 1).status = kCCDecodeError :=
  ⟨rfl,
    ((verify_status refEngine refPublicKey ccPKCS1Padding [1, 2] 2 kCCDigestSHA256 0 [6, 37] 2
      ⟨[96, 134, 72, 1, 101, 3, 4, 2, 1], 32, 64⟩ (by decide) (Or.inl rfl) rfl).1 rfl).mpr
      ⟨by decide, by decide⟩,
    by decide, by decide⟩

/-- Claim C10.  For Sign and for Verify: when the digest is not one of the
five allow-listed algorithms, or the padding is neither PKCS1 nor PSS, or the
key handle, the hash buffer or the signature buffer is null, the status is
`kCCParamError` and no engine routine is called; when all these checks pass
and the digest registry returns a descriptor, the status is not
`kCCParamError`. -/
theorem sign_verify_validation (E : Engine) (key : CCRSACryptorRef)
    (padding : CCAsymmetricPadding) (hash : Option (List Nat)) (hashLen : Nat)
    (digestType : CCDigestAlgorithm) (saltLen : Nat)
    (signedData : Option (List Nat)) (signedDataLen : Nat) :
    (((digestType ≠ kCCDigestSHA1 ∧ digestType ≠ kCCDigestSHA224 ∧
        digestType ≠ kCCDigestSHA256 ∧ digestType ≠ kCCDigestSHA384 ∧
        digestType ≠ kCCDigestSHA512) ∨
      (padding ≠ ccPKCS1Padding ∧ padding ≠ ccRSAPSSPadding) ∨
      key = none ∨ hash = none ∨ signedData = none) →
      (CCRSACryptorSign E key padding hash hashLen digestType saltLen signedData
        signedDataLen).status = kCCParamError ∧
      (CCRSACryptorSign E key padding hash hashLen digestType saltLen signedData
        signedDataLen).calls = [] ∧
      (CCRSACryptorVerify E key padding hash hashLen digestType saltLen signedData
        signedDataLen).status = kCCParamError ∧
      (CCRSACryptorVerify E key padding hash hashLen digestType saltLen signedData
        signedDataLen).calls = []) ∧
    ((digestType = kCCDigestSHA1 ∨ digestType = kCCDigestSHA224 ∨
        digestType = kCCDigestSHA256 ∨ digestType = kCCDigestSHA384 ∨
        digestType = kCCDigestSHA512) →
      (padding = ccPKCS1Padding ∨ padding = ccRSAPSSPadding) →
      key ≠ none → hash ≠ none → signedData ≠ none →
      E.CCDigestGetDigestInfo digestType ≠ none →
      (CCRSACryptorSign E key padding hash hashLen digestType saltLen signedData
        signedDataLen).status ≠ kCCParamError ∧
      (CCRSACryptorVerify E key padding hash hashLen digestType saltLen signedData
        signedDataLen).status ≠ kCCParamError) := by
  constructor
  · intro h
    have h1 := validate_reject E key padding hash signedData digestType signedData.isNone h
    have h2 := validate_reject E key padding hash signedData digestType false h
    simp only [CCRSACryptorSign, CCRSACryptorVerify, h1, h2, and_self]
  · intro hd hp hk hh hs hdi
    obtain ⟨k, rfl⟩ := Option.ne_none_iff_exists'.mp hk
    obtain ⟨hb, rfl⟩ := Option.ne_none_iff_exists'.mp hh
    obtain ⟨sb, rfl⟩ := Option.ne_none_iff_exists'.mp hs
    obtain ⟨di, hdi⟩ := Option.ne_none_iff_exists'.mp hdi
    have hv := validate_ok E k padding hb sb digestType di hd hp hdi
    simp only [CCRSACryptorSign, CCRSACryptorVerify, Option.isNone_some, hv]
    constructor
    · split_ifs <;> simp
    · split_ifs <;> simp

/-- Witness for C10: on the reference engine, Sign with the unlisted digest
selector 0 is rejected without an engine call, and Sign and Verify with
SHA-256, PKCS1 padding and valid pointers do not return `kCCParamError`. -/
theorem sign_verify_validation_witness :
    (CCRSACryptorSign refEngine (some refPrivateKey) ccPKCS1Padding (some [1, 2]) 2
      (CCDigestAlgorithm.other 0) 0 (some [0, 0]) 2).status = kCCParamError ∧
    (CCRSACryptorSign refEngine (some refPrivateKey) ccPKCS1Padding (some [1, 2]) 2
      (CCDigestAlgorithm.other 0) 0 (some [0, 0]) 2).calls = [] ∧
    (CCRSACryptorSign refEngine (some refPrivateKey) ccPKCS1Padding (some [1, 2]) 2
      kCCDigestSHA256 0 (some [0, 0]) 2).status ≠ kCCParamError ∧
    (CCRSACryptorVerify refEngine (some refPrivateKey) ccPKCS1Padding (some [1, 2]) 2
      kCCDigestSHA256 0 (some [0, 0]) 2).status ≠ kCCParamError ∧
    CCRSACryptorSign refEngine (some refPrivateKey) ccPKCS1Padding (some [1, 2]) 2
      kCCDigestSHA256 0 (some [0, 0]) 2
      = { status := kCCSuccess, signedData := some [6, 37], signedDataLen := 2,
          calls := [EngineCall.ccrsa_sign_pkcs1v15] } :=
  have h1 := (sign_verify_validation refEngine (some refPrivateKey) ccPKCS1Padding
    (some [1, 2]) 2 (CCDigestAlgorithm.other 0) 0 (some [0, 0]) 2).1 (Or.inl (by decide))
  have h2 := (sign_verify_validation refEngine (some refPrivateKey) ccPKCS1Padding
    (some [1, 2]) 2 kCCDigestSHA256 0 (some [0, 0]) 2).2 (by decide) (Or.inl rfl)
    (by decide) (by decide) (by decide) (by decide)
  ⟨h1.1, h1.2.1, h2.1, h2.2, by decide⟩

/-! ## Properties of raw modular exponentiation -/

/-- Claim C11.  For a Crypt call with valid pointers on a key whose
`key_nbits + 7` does not wrap, with `keysize_bytes = (key_nbits + 7) / 8`:
when the input length differs from `keysize_bytes` or the output capacity is
below it, the status is `kCCMemoryFailure`, no engine routine is called and
the output buffer and length are left as they were; and whenever the status
is `kCCSuccess` the output length is exactly `keysize_bytes`. -/
theorem crypt_length_checks (E : Engine) (buf0 : Nat) (key : CCRSACryptor)
    (input out : List Nat) (inLen outLen : Nat)
    (hk : key.key_nbits + 7 < SIZE_T_RANGE) :
    ((inLen ≠ (key.key_nbits + 7) / 8 ∨ outLen < (key.key_nbits + 7) / 8) →
      CCRSACryptorCrypt E buf0 (some key) (some input) inLen (some out) (some outLen)
        = { status := kCCMemoryFailure, out := some out, outLen := some outLen,
            calls := [] }) ∧
    ((CCRSACryptorCrypt E buf0 (some key) (some input) inLen (some out) (some outLen)).status
        = kCCSuccess →
      (CCRSACryptorCrypt E buf0 (some key) (some input) inLen (some out) (some outLen)).outLen
        = some ((key.key_nbits + 7) / 8)) := by
  have hmod : (key.key_nbits + 7) % SIZE_T_RANGE = key.key_nbits + 7 := Nat.mod_eq_of_lt hk
  constructor
  · intro h
    simp only [CCRSACryptorCrypt, hmod, h, if_true]
  · obtain ⟨fk, nb, kt⟩ := key
    simp only [] at hmod
    cases kt <;> simp only [CCRSACryptorCrypt, hmod] <;> split_ifs <;> simp

/-- Witness for C11: on the reference engine and the 12-bit reference key
(`keysize_bytes = 2`), a one-byte input is refused with `kCCMemoryFailure`,
and a two-byte input gives `kCCSuccess` with output length 2. -/
theorem crypt_length_checks_witness :
    refPublicKey.key_nbits + 7 < SIZE_T_RANGE ∧
    CCRSACryptorCrypt refEngine 0 (some refPublicKey) (some [0, 65]) 1 (some [9, 9, 9]) (some 3)
      = { status := kCCMemoryFailure, out := some [9, 9, 9], outLen := some 3, calls := [] } ∧
    (CCRSACryptorCrypt refEngine 0 (some refPublicKey) (some [0, 65]) 2 (some [9, 9, 9])
      (some 3)).status = kCCSuccess ∧
    (CCRSACryptorCrypt refEngine 0 (some refPublicKey) (some [0, 65]) 2 (some [9, 9, 9])
      (some 3)).outLen = some ((refPublicKey.key_nbits + 7) / 8) :=
  have h := crypt_length_checks refEngine 0 refPublicKey [0, 65] [9, 9, 9] 1 3 (by decide)
  have h2 := crypt_length_checks refEngine 0 refPublicKey [0, 65] [9, 9, 9] 2 3 (by decide)
  ⟨by decide, h.1 (Or.inl (by decide)), by decide, h2.2 (by decide)⟩

/-! ## Properties of key generation -/

/-- Claim C12.  `CCRSACryptorGeneratePair`: a size above 4096 bits gives
`kCCParamError` whatever the random generator is; otherwise an unavailable
random generator gives `kCCRNGFailure`, a failed allocation (of the private or
of the public object) gives `kCCMemoryFailure` and a rejection by the key
search gives `kCCDecodeError`; on every failing call both handles are null;
and on every successful call both are non-null, the private one tagged
Private, the public one tagged Public, with the same `key_nbits`. -/
theorem generate_pair_outcomes (E : Engine) (mem1 mem2 : Option CCRSACryptor)
    (keysize e : Nat) :
    (kCCMaximumRSAKeyBits < keysize →
      CCRSACryptorGeneratePair E mem1 mem2 keysize e
        = { status := kCCParamError, publicKey := none, privateKey := none, calls := [] }) ∧
    (keysize ≤ kCCMaximumRSAKeyBits → E.ccDRBGGetRngState = none →
      (CCRSACryptorGeneratePair E mem1 mem2 keysize e).status = kCCRNGFailure) ∧
    (keysize ≤ kCCMaximumRSAKeyBits → E.ccDRBGGetRngState ≠ none → mem1 = none →
      (CCRSACryptorGeneratePair E mem1 mem2 keysize e).status = kCCMemoryFailure) ∧
    (∀ (rng : ccrng_state) (c : CCRSACryptor),
      keysize ≤ kCCMaximumRSAKeyBits → E.ccDRBGGetRngState = some rng → mem1 = some c →
      (E.ccrsa_generate_fips186_key keysize { c.fk with n := ccn_nof keysize }
        (ccn_write_int 1 (e % 2 ^ 32) (ccn_write_int_size 1 (e % 2 ^ 32))) rng).1 ≠ 0 →
      (CCRSACryptorGeneratePair E mem1 mem2 keysize e).status = kCCDecodeError) ∧
    (∀ (rng : ccrng_state) (c : CCRSACryptor),
      keysize ≤ kCCMaximumRSAKeyBits → E.ccDRBGGetRngState = some rng → mem1 = some c →
      (E.ccrsa_generate_fips186_key keysize { c.fk with n := ccn_nof keysize }
        (ccn_write_int 1 (e % 2 ^ 32) (ccn_write_int_size 1 (e % 2 ^ 32))) rng).1 = 0 →
      mem2 = none →
      (CCRSACryptorGeneratePair E mem1 mem2 keysize e).status = kCCMemoryFailure) ∧
    ((CCRSACryptorGeneratePair E mem1 mem2 keysize e).status ≠ kCCSuccess →
      (CCRSACryptorGeneratePair E mem1 mem2 keysize e).publicKey = none ∧
      (CCRSACryptorGeneratePair E mem1 mem2 keysize e).privateKey = none) ∧
    ((CCRSACryptorGeneratePair E mem1 mem2 keysize e).status = kCCSuccess →
      ∃ pub priv : CCRSACryptor,
        (CCRSACryptorGeneratePair E mem1 mem2 keysize e).publicKey = some pub ∧
        (CCRSACryptorGeneratePair E mem1 mem2 keysize e).privateKey = some priv ∧
        priv.keyType = ccRSAKeyPrivate ∧ pub.keyType = ccRSAKeyPublic ∧
        pub.key_nbits = priv.key_nbits) := by
  refine ⟨?_, ?_, ?_, ?_, ?_, ?_, ?_⟩
  · intro h
    simp [CCRSACryptorGeneratePair, Nat.not_le.mpr h]
  · intro h hr
    simp [CCRSACryptorGeneratePair, h, hr]
  · intro h hr hm
    obtain ⟨rng, hr⟩ := Option.ne_none_iff_exists'.mp hr
    simp [CCRSACryptorGeneratePair, h, hr, hm, ccMallocRSACryptor]
  · intro rng c h hr hm hg
    simp only [Nat.reducePow] at hg
    simp [CCRSACryptorGeneratePair, h, hr, hm, ccMallocRSACryptor, hg]
  · intro rng c h hr hm hg hm2
    simp only [Nat.reducePow] at hg
    simp [CCRSACryptorGeneratePair, h, hr, hm, ccMallocRSACryptor, hg, hm2,
      CCRSACryptorGetPublicKeyFromPrivateKey]
  · intro hs
    by_cases h1 : keysize ≤ kCCMaximumRSAKeyBits <;> cases hr : E.ccDRBGGetRngState <;>
      cases mem1 <;> cases mem2 <;>
      simp only [CCRSACryptorGeneratePair, h1, hr, ccMallocRSACryptor,
        CCRSACryptorGetPublicKeyFromPrivateKey] at hs ⊢ <;>
      (try split_ifs at hs ⊢) <;> simp at hs ⊢
  · intro hs
    by_cases h1 : keysize ≤ kCCMaximumRSAKeyBits <;> cases hr : E.ccDRBGGetRngState <;>
      cases mem1 <;> cases mem2 <;>
      simp only [CCRSACryptorGeneratePair, h1, hr, ccMallocRSACryptor,
        CCRSACryptorGetPublicKeyFromPrivateKey] at hs ⊢ <;>
      (try split_ifs at hs ⊢) <;> simp at hs ⊢

/-- Witness for C12: on the reference engine, a 12-bit request with exponent
17 succeeds with a Private and a Public object of 12 bits each; an exponent
the key search rejects gives `kCCDecodeError`, an oversized request
`kCCParamError`, a failed allocation `kCCMemoryFailure`, each with null
handles. -/
theorem generate_pair_outcomes_witness :
    (CCRSACryptorGeneratePair refEngine (some blankCryptor) (some blankCryptor) 12 17).status
      = kCCSuccess ∧
    (∃ pub priv : CCRSACryptor,
      (CCRSACryptorGeneratePair refEngine (some blankCryptor) (some blankCryptor) 12 17).publicKey
        = some pub ∧
      (CCRSACryptorGeneratePair refEngine (some blankCryptor) (some blankCryptor) 12
        17).privateKey = some priv ∧
      priv.keyType = ccRSAKeyPrivate ∧ pub.keyType = ccRSAKeyPublic ∧
      pub.key_nbits = priv.key_nbits) ∧
    CCRSACryptorGeneratePair refEngine (some blankCryptor) (some blankCryptor) 4097 17
      = { status := kCCParamError, publicKey := none, privateKey := none, calls := [] } ∧
    CCRSACryptorGeneratePair refEngine (some blankCryptor) (some blankCryptor) 12 3
      = { status := kCCDecodeError, publicKey := none, privateKey := none,
          calls := [EngineCall.ccrsa_generate_fips186_key] } ∧
    CCRSACryptorGeneratePair refEngine none (some blankCryptor) 12 17
      = { status := kCCMemoryFailure, publicKey := none, privateKey := none, calls := [] } :=
  ⟨by decide,
    (generate_pair_outcomes refEngine (some blankCryptor) (some blankCryptor) 12 17).2.2.2.2.2.2
      (by decide),
    (generate_pair_outcomes refEngine (some blankCryptor) (some blankCryptor) 4097 17).1
      (by decide),
    by decide, by decide⟩

/-- Claim C13 (the code departs from it).  The status of
`CCRSACryptorCreatePairFromData` does not depend on the four output buffers
or their capacities: the same call with other buffers and capacities, also
undersized ones, returns the same status, because the status of the four
`ccn_write_arg` calls is dropped. -/
theorem create_pair_status_ignores_capacities (E : Engine) (mem1 mem2 : Option CCRSACryptor)
    (stack e : Nat)
    (xp1 : List Nat) (xp1Length : Nat) (xp2 : List Nat) (xp2Length : Nat)
    (xp : List Nat) (xpLength : Nat)
    (xq1 : List Nat) (xq1Length : Nat) (xq2 : List Nat) (xq2Length : Nat)
    (xq : List Nat) (xqLength : Nat)
    (retp : List Nat) (retpLength : Nat) (retq : List Nat) (retqLength : Nat)
    (retm : List Nat) (retmLength : Nat) (retd : List Nat) (retdLength : Nat)
    (retp2 : List Nat) (retpLength2 : Nat) (retq2 : List Nat) (retqLength2 : Nat)
    (retm2 : List Nat) (retmLength2 : Nat) (retd2 : List Nat) (retdLength2 : Nat) :
    (CCRSACryptorCreatePairFromData E mem1 mem2 stack e xp1 xp1Length xp2 xp2Length
      xp xpLength xq1 xq1Length xq2 xq2Length xq xqLength
      retp retpLength retq retqLength retm retmLength retd retdLength).status
    = (CCRSACryptorCreatePairFromData E mem1 mem2 stack e xp1 xp1Length xp2 xp2Length
      xp xpLength xq1 xq1Length xq2 xq2Length xq xqLength
      retp2 retpLength2 retq2 retqLength2 retm2 retmLength2 retd2 retdLength2).status := by
  unfold CCRSACryptorCreatePairFromData
  dsimp only
  cases hm : ccMallocRSACryptor mem1 ((xpLength * 8 + xqLength * 8) % SIZE_T_RANGE) with
  | none => rfl
  | some privateCryptor =>
    dsimp only
    generalize ccn_read_uint (ccn_nof_size xp1Length) stack xp1Length xp1 = r1
    generalize ccn_read_uint (ccn_nof_size xp2Length) stack xp2Length xp2 = r2
    generalize ccn_read_uint (ccn_nof_size xpLength) stack xpLength xp = r3
    generalize ccn_read_uint (ccn_nof_size xq1Length) stack xq1Length xq1 = r4
    generalize ccn_read_uint (ccn_nof_size xq2Length) stack xq2Length xq2 = r5
    generalize ccn_read_uint (ccn_nof_size xqLength) stack xqLength xq = r6
    generalize E.ccrsa_make_fips186_key _ _ _ _ _ _ _ _ _ _ = r
    generalize CCRSACryptorGetPublicKeyFromPrivateKey E mem2 _ = pk
    by_cases h1 : r1.1 = 0 <;> by_cases h2 : r2.1 = 0 <;> by_cases h3 : r3.1 = 0 <;>
      by_cases h4 : r4.1 = 0 <;> by_cases h5 : r5.1 = 0 <;> by_cases h6 : r6.1 = 0 <;>
      by_cases h7 : r.rc = 0 <;> cases pk <;>
      simp only [h1, h2, h3, h4, h5, h6, h7, not_true_eq_false, not_false_eq_true, if_true,
        if_false]

/-- The failing call of C13: on the reference engine the key derivation
succeeds for the candidates 61 and 53 with exponent 17; with capacities 0, 0, 1
and 1 for `p`, `q`, the modulus and the private exponent (minimal lengths 1, 1,
2 and 2), each `ccn_write_arg` reports `kCCMemoryFailure`, yet the status is
`kCCSuccess` and the four buffers and lengths are left as they were. -/
theorem create_pair_undersized_buffers :
    (ccn_write_arg 1 61 [7, 7] 0).1 = kCCMemoryFailure ∧
    (ccn_write_arg 1 53 [7, 7] 0).1 = kCCMemoryFailure ∧
    (ccn_write_arg 1 3233 [7, 7, 7] 1).1 = kCCMemoryFailure ∧
    (ccn_write_arg 1 2753 [7, 7, 7] 1).1 = kCCMemoryFailure ∧
    (CCRSACryptorCreatePairFromData refEngine (some blankCryptor) (some blankCryptor) 0 17
      [1] 1 [1] 1 [61] 1 [1] 1 [1] 1 [53] 1
      [7, 7] 0 [7, 7] 0 [7, 7, 7] 1 [7, 7, 7] 1).status = kCCSuccess ∧
    (CCRSACryptorCreatePairFromData refEngine (some blankCryptor) (some blankCryptor) 0 17
      [1] 1 [1] 1 [61] 1 [1] 1 [1] 1 [53] 1
      [7, 7] 0 [7, 7] 0 [7, 7, 7] 1 [7, 7, 7] 1).retp = [7, 7] ∧
    (CCRSACryptorCreatePairFromData refEngine (some blankCryptor) (some blankCryptor) 0 17
      [1] 1 [1] 1 [61] 1 [1] 1 [1] 1 [53] 1
      [7, 7] 0 [7, 7] 0 [7, 7, 7] 1 [7, 7, 7] 1).retm = [7, 7, 7] ∧
    (CCRSACryptorCreatePairFromData refEngine (some blankCryptor) (some blankCryptor) 0 17
      [1] 1 [1] 1 [61] 1 [1] 1 [1] 1 [53] 1
      [7, 7] 0 [7, 7] 0 [7, 7, 7] 1 [7, 7, 7] 1).retmLength = 1 ∧
    (CCRSACryptorCreatePairFromData refEngine (some blankCryptor) (some blankCryptor) 0 17
      [1] 1 [1] 1 [61] 1 [1] 1 [1] 1 [53] 1
      [7, 7] 2 [7, 7] 2 [7, 7, 7] 3 [7, 7, 7] 3).retm = [12, 161, 7] := by
  decide

/-! ## Properties of the CRT accessors -/

/-- The bit scan brackets the number: the low `i` bits of `x` are below
`2 ^ len`, and at least `2 ^ (len - 1)` when `len` is not 0, where `len ≤ i`
is the result of the scan. -/
theorem ccn_bitlen_scan_bounds (i x : Nat) :
    ccn_bitlen_scan i x ≤ i ∧
    x % 2 ^ i < 2 ^ ccn_bitlen_scan i x ∧
    (ccn_bitlen_scan i x ≠ 0 → 2 ^ (ccn_bitlen_scan i x - 1) ≤ x % 2 ^ i) := by
  induction i with
  | zero => simp [ccn_bitlen_scan, Nat.mod_one]
  | succ i ih =>
    have hsplit : x % 2 ^ (i + 1) = x % 2 ^ i + 2 ^ i * (x / 2 ^ i % 2) := Nat.mod_pow_succ
    by_cases hb : x.testBit i = true
    · have hbit : x / 2 ^ i % 2 = 1 := by
        simpa [Nat.testBit_to_div_mod] using hb
      simp only [ccn_bitlen_scan, hb, if_true]
      refine ⟨le_refl _, Nat.mod_lt _ (by positivity), ?_⟩
      intro _
      rw [hsplit, hbit]
      simp
    · have hbit : x / 2 ^ i % 2 = 0 := by
        have h1 : ¬ (x / 2 ^ i % 2 = 1) := by
          simpa [Nat.testBit_to_div_mod] using hb
        omega
      have hb' : x.testBit i = false := by simpa using hb
      simp only [ccn_bitlen_scan, hb', Bool.false_eq_true, if_false]
      rw [hsplit, hbit]
      simp only [Nat.mul_zero, Nat.add_zero]
      exact ⟨Nat.le_succ_of_le ih.1, ih.2.1, ih.2.2⟩

/-- The value of a byte string extended by one byte. -/
theorem be_value_append_singleton (l : List Nat) (b : Nat) :
    be_value (l ++ [b]) = be_value l * 256 + b % 256 := by
  simp [be_value, List.foldl_append]

/-- The `k` bytes written for `v` are `k` bytes, each below 256, and denote
`v mod 256 ^ k`. -/
theorem be_bytes_spec (k v : Nat) :
    (be_bytes k v).length = k ∧ (∀ b ∈ be_bytes k v, b < 256) ∧
    be_value (be_bytes k v) = v % 256 ^ k := by
  induction k generalizing v with
  | zero => simp [be_bytes, be_value, Nat.mod_one]
  | succ k ih =>
    obtain ⟨h1, h2, h3⟩ := ih (v / 256)
    refine ⟨by simp [be_bytes, h1], ?_, ?_⟩
    · intro b hb
      simp only [be_bytes, List.mem_append, List.mem_singleton] at hb
      rcases hb with hb | hb
      · exact h2 b hb
      · rw [hb]
        exact Nat.mod_lt _ (by norm_num)
    · simp only [be_bytes, be_value_append_singleton, h3, Nat.mod_mod]
      rw [pow_succ, Nat.mul_comm (256 ^ k) 256, Nat.mod_mul]
      ring

/-- The first of `k + 1` bytes written for `v`. -/
theorem be_bytes_head (k v : Nat) :
    (be_bytes (k + 1) v).head? = some (v / 256 ^ k % 256) := by
  induction k generalizing v with
  | zero => simp [be_bytes]
  | succ k ih =>
    have h := ih (v / 256)
    rw [be_bytes]
    cases hl : be_bytes (k + 1) (v / 256) with
    | nil => simp [hl] at h
    | cons a t =>
      rw [hl] at h
      simp only [List.head?_cons, Option.some.injEq] at h
      simp only [List.cons_append, List.head?_cons, Option.some.injEq]
      rw [h, Nat.div_div_eq_div_mul, pow_succ, Nat.mul_comm]

/-- The bytes `ccn_write_uint` writes for the size `ccn_write_uint_size`
reports are the minimal big-endian encoding of the number, followed by the
rest of the buffer. -/
theorem ccn_write_uint_minimal (n x : Nat) (out : List Nat) :
    ccn_write_uint n x (ccn_write_uint_size n x) out
      = be_bytes (ccn_write_uint_size n x) (ccn_value n x)
          ++ out.drop (ccn_write_uint_size n x) ∧
    (be_bytes (ccn_write_uint_size n x) (ccn_value n x)).length = ccn_write_uint_size n x ∧
    is_minimal_be (be_bytes (ccn_write_uint_size n x) (ccn_value n x)) (ccn_value n x) := by
  obtain ⟨hle, hlt, hge⟩ := ccn_bitlen_scan_bounds (64 * n) x
  have hsz : ccn_write_uint_size n x ≤ ccn_sizeof_n n := by
    simp only [ccn_write_uint_size, ccn_bitlen, ccn_sizeof_n]
    omega
  obtain ⟨hlen, hbytes, hval⟩ := be_bytes_spec (ccn_write_uint_size n x) (ccn_value n x)
  refine ⟨?_, hlen, hbytes, ?_, ?_⟩
  · simp only [ccn_write_uint, Nat.sub_eq_zero_of_le hsz, List.take_zero, List.nil_append,
      Nat.min_eq_left hsz]
  · rw [hval]
    apply Nat.mod_eq_of_lt
    calc ccn_value n x < 2 ^ ccn_bitlen n x := hlt
      _ ≤ 2 ^ (8 * ccn_write_uint_size n x) := by
        apply Nat.pow_le_pow_right (by norm_num)
        simp only [ccn_write_uint_size]
        omega
      _ = 256 ^ ccn_write_uint_size n x := by
        rw [pow_mul]
        norm_num
  · cases hk : ccn_write_uint_size n x with
    | zero => simp [be_bytes]
    | succ k =>
      rw [be_bytes_head]
      simp only [ne_eq, Option.some.injEq]
      have hb1 : 8 * k + 1 ≤ ccn_bitlen n x := by
        simp only [ccn_write_uint_size] at hk
        omega
      have hb2 : ccn_bitlen n x ≤ 8 * k + 8 := by
        simp only [ccn_write_uint_size] at hk
        omega
      have hlow : 256 ^ k ≤ ccn_value n x := by
        have h1 := hge (by simp only [ccn_bitlen] at hb1; omega)
        calc 256 ^ k = 2 ^ (8 * k) := by
              rw [pow_mul]
              norm_num
          _ ≤ 2 ^ (ccn_bitlen n x - 1) := Nat.pow_le_pow_right (by norm_num) (by omega)
          _ ≤ ccn_value n x := h1
      have hhigh : ccn_value n x < 256 ^ k * 256 := by
        calc ccn_value n x < 2 ^ ccn_bitlen n x := hlt
          _ ≤ 2 ^ (8 * k + 8) := Nat.pow_le_pow_right (by norm_num) hb2
          _ = 256 ^ k * 256 := by
            rw [pow_add, pow_mul]
            norm_num
      have hq1 : 1 ≤ ccn_value n x / 256 ^ k :=
        (Nat.one_le_div_iff (by positivity)).mpr hlow
      have hq2 : ccn_value n x / 256 ^ k < 256 :=
        (Nat.div_lt_iff_lt_mul (by positivity)).mpr (by omega)
      omega

/-- Dropping the zero units above the most significant nonzero unit keeps the
value. -/
theorem ccn_value_ccn_n (n x : Nat) : ccn_value (ccn_n n x) x = ccn_value n x := by
  obtain ⟨hle, hlt, _⟩ := ccn_bitlen_scan_bounds (64 * n) x
  have hk : ccn_n n x ≤ n := by
    simp only [ccn_n, ccn_bitlen]
    omega
  have hdvd : 2 ^ (64 * ccn_n n x) ∣ 2 ^ (64 * n) :=
    pow_dvd_pow 2 (Nat.mul_le_mul_left 64 hk)
  unfold ccn_value
  rw [← Nat.mod_mod_of_dvd x hdvd]
  apply Nat.mod_eq_of_lt
  calc x % 2 ^ (64 * n) < 2 ^ ccn_bitlen n x := hlt
    _ ≤ 2 ^ (64 * ccn_n n x) := by
      apply Nat.pow_le_pow_right (by norm_num)
      simp only [ccn_n]
      omega

/-- The comparison `GetCRTComponents` makes on the normalised factors is
positive exactly when the stored `p` exceeds the stored `q`. -/
theorem ccn_cmpn_normalised (np nq p q : Nat) :
    ccn_cmpn (ccn_n np p) p (ccn_n nq q) q > 0 ↔ ccn_value nq q < ccn_value np p := by
  unfold ccn_cmpn
  rw [ccn_value_ccn_n, ccn_value_ccn_n]
  split_ifs with h1 h2
  · simp [h1]
  · simp only [gt_iff_lt, Int.reduceNeg, Int.reduceLT, false_iff]
    exact h1
  · simp only [gt_iff_lt, lt_self_iff_false, false_iff]
    exact h1

/-- Claim C14.  `CCRSAGetCRTComponents` returns `kCCParamError` and leaves the
three buffers as they were when the key is not Private, and also when it is
Private but the stored factors do not satisfy `p > q`; when the key is
Private, `p > q` holds and the three capacities are at least the sizes
`CCRSAGetCRTComponentsSizes` reports, it returns `kCCSuccess` and the head of
each buffer is the minimal-length big-endian unsigned encoding of the
component, of exactly the reported size. -/
theorem crt_components (key : CCRSACryptor) (dp dq qinv : List Nat)
    (dpSize dqSize qinvSize : Nat) :
    (key.keyType ≠ ccRSAKeyPrivate →
      CCRSAGetCRTComponents key dp dpSize dq dqSize qinv qinvSize
        = { status := kCCParamError, dp := dp, dq := dq, qinv := qinv }) ∧
    (key.keyType = ccRSAKeyPrivate →
      ¬ (ccn_value key.fk.zq_n key.fk.zq_prime < ccn_value key.fk.zp_n key.fk.zp_prime) →
      CCRSAGetCRTComponents key dp dpSize dq dqSize qinv qinvSize
        = { status := kCCParamError, dp := dp, dq := dq, qinv := qinv }) ∧
    (key.keyType = ccRSAKeyPrivate →
      ccn_value key.fk.zq_n key.fk.zq_prime < ccn_value key.fk.zp_n key.fk.zp_prime →
      ∀ s1 s2 s3 : Nat,
        (CCRSAGetCRTComponentsSizes key).dpSize = some s1 →
        (CCRSAGetCRTComponentsSizes key).dqSize = some s2 →
        (CCRSAGetCRTComponentsSizes key).qinvSize = some s3 →
        s1 ≤ dpSize → s2 ≤ dqSize → s3 ≤ qinvSize →
        ∃ b1 b2 b3 : List Nat,
          CCRSAGetCRTComponents key dp dpSize dq dqSize qinv qinvSize
            = { status := kCCSuccess, dp := b1 ++ dp.drop s1, dq := b2 ++ dq.drop s2,
                qinv := b3 ++ qinv.drop s3 } ∧
          b1.length = s1 ∧ b2.length = s2 ∧ b3.length = s3 ∧
          is_minimal_be b1 (ccn_value key.fk.zp_n key.fk.dp) ∧
          is_minimal_be b2 (ccn_value key.fk.zq_n key.fk.dq) ∧
          is_minimal_be b3 (ccn_value key.fk.zp_n key.fk.qinv)) := by
  refine ⟨?_, ?_, ?_⟩
  · intro h
    simp [CCRSAGetCRTComponents, h]
  · intro h hord
    have hc := (ccn_cmpn_normalised key.fk.zp_n key.fk.zq_n key.fk.zp_prime
      key.fk.zq_prime).not.mpr hord
    simp only [CCRSAGetCRTComponents, CCRSAGetCRTComponentsSizes, h, if_true, hc,
      not_false_eq_true]
  · intro h hord s1 s2 s3 h1 h2 h3 hc1 hc2 hc3
    have hc := (ccn_cmpn_normalised key.fk.zp_n key.fk.zq_n key.fk.zp_prime
      key.fk.zq_prime).mpr hord
    simp only [CCRSAGetCRTComponentsSizes, h, if_true, Option.some.injEq] at h1 h2 h3
    subst h1 h2 h3
    obtain ⟨w1, l1, m1⟩ := ccn_write_uint_minimal key.fk.zp_n key.fk.dp dp
    obtain ⟨w2, l2, m2⟩ := ccn_write_uint_minimal key.fk.zq_n key.fk.dq dq
    obtain ⟨w3, l3, m3⟩ := ccn_write_uint_minimal key.fk.zp_n key.fk.qinv qinv
    refine ⟨_, _, _, ?_, l1, l2, l3, m1, m2, m3⟩
    simp only [CCRSAGetCRTComponents, CCRSAGetCRTComponentsSizes, h, if_true, hc,
      not_true_eq_false, if_false, ge_iff_le, hc1, hc2, hc3, and_self, w1, w2, w3]

/-- Witness for C14: the reference private key (`p = 61 > q = 53`, components
53, 49 and 38, one byte each) with two-byte buffers gives `kCCSuccess` and
writes one byte into each; the same key tagged Public, and the key with its
factors exchanged, give `kCCParamError` with the buffers untouched. -/
theorem crt_components_witness :
    CCRSAGetCRTComponentsSizes refPrivateKey
      = { status := kCCSuccess, dpSize := some 1, dqSize := some 1, qinvSize := some 1 } ∧
    (∃ b1 b2 b3 : List Nat,
      CCRSAGetCRTComponents refPrivateKey [7, 7] 2 [7, 7] 2 [7, 7] 2
        = { status := kCCSuccess, dp := b1 ++ List.drop 1 [7, 7], dq := b2 ++ List.drop 1 [7, 7],
            qinv := b3 ++ List.drop 1 [7, 7] } ∧
      b1.length = 1 ∧ b2.length = 1 ∧ b3.length = 1 ∧
      is_minimal_be b1 (ccn_value refPrivateKey.fk.zp_n refPrivateKey.fk.dp) ∧
      is_minimal_be b2 (ccn_value refPrivateKey.fk.zq_n refPrivateKey.fk.dq) ∧
      is_minimal_be b3 (ccn_value refPrivateKey.fk.zp_n refPrivateKey.fk.qinv)) ∧
    CCRSAGetCRTComponents refPrivateKey [7, 7] 2 [7, 7] 2 [7, 7] 2
      = { status := kCCSuccess, dp := [53, 7], dq := [49, 7], qinv := [38, 7] } ∧
    CCRSAGetCRTComponents refPublicKey [7, 7] 2 [7, 7] 2 [7, 7] 2
      = { status := kCCParamError, dp := [7, 7], dq := [7, 7], qinv := [7, 7] } ∧
    CCRSAGetCRTComponents
        { refPrivateKey with fk := { refContext with zp_prime := 53, zq_prime := 61 } }
        [7, 7] 2 [7, 7] 2 [7, 7] 2
      = { status := kCCParamError, dp := [7, 7], dq := [7, 7], qinv := [7, 7] } :=
  ⟨by decide,
    (crt_components refPrivateKey [7, 7] [7, 7] [7, 7] 2 2 2).2.2 rfl (by decide) 1 1 1
      (by decide) (by decide) (by decide) (by decide) (by decide) (by decide),
    by decide,
    (crt_components refPublicKey [7, 7] [7, 7] [7, 7] 2 2 2).1 (by decide),
    (crt_components { refPrivateKey with fk := { refContext with zp_prime := 53, zq_prime := 61 } }
      [7, 7] [7, 7] [7, 7] 2 2 2).2.1 rfl (by decide)⟩

end CommonRSACryptor
